import Mathlib

/-!
Verification of the RCS virtual try-on conversation server (Express + Gemini).

The development shallowly embeds the server's session store, message
classifier, image fetcher, generation orchestrator and delivery pipeline as
pure Lean functions, and proves the specification's claims about them.

Modelling conventions:
* JS wall-clock times (`Date.now()`) become explicit `Nat` parameters, one per
  atomic (suspension-free) segment of a webhook turn.
* The mutable `userSessions` table is modelled as a generation-indexed heap:
  `cur` maps a user to the generation id of the live session object, and
  mutations write through the heap.  A JS reference captured by
  `const session = getSession(u)` is the generation id at capture time; it
  keeps observing mutations exactly while the table still holds the same
  object, which is precisely the JS aliasing behaviour.
* External effects (HTTP fetch, Gemini calls, Vonage sends, file writes) are
  oracles: their outcomes are inputs, and the calls the code issues are
  recorded in an effect list.
-/

namespace TryOn

/-- Default `SESSION_TTL_MS` (10 minutes), used when the env var is absent. -/
def SESSION_TTL_MS : Nat := 10 * 60 * 1000

/-- Default `IMAGE_MAX_BYTES` (12 MiB), used when the env var is absent. -/
def IMAGE_MAX_BYTES : Nat := 12 * 1024 * 1024

/-- One stored image slot value: `{ data, mime, ts }` as built at the
`updateSession(userPhone, { [imageType]: { data, mime, ts: now() } })` call. -/
structure StoredImage where
  data : String
  mime : String
  ts : Nat
deriving DecidableEq

/-- One session object of the `userSessions` table:
`{ selfie?, clothing?, inProgress, lastUpdated }`. -/
structure SessionObj where
  selfie : Option StoredImage
  clothing : Option StoredImage
  inProgress : Bool
  lastUpdated : Nat
deriving DecidableEq

/-- The object `{ lastUpdated: now(), inProgress: false }` that `getSession`
and `resetSession` install (absent slots read as `none`). -/
def freshObj (t : Nat) : SessionObj :=
  ⟨none, none, false, t⟩

/-- The process-wide session table.  `heap` holds every session object ever
allocated, indexed by allocation order; `cur u` is the generation id of the
object currently stored at `userSessions[u]`; `next` is the next free id. -/
structure Store where
  heap : Nat → SessionObj
  cur : String → Option Nat
  next : Nat

/-- Allocate a fresh session object for `u` (the `userSessions[u] = {...}`
assignment). -/
def alloc (st : Store) (u : String) (t : Nat) : Nat × Store :=
  (st.next,
   ⟨fun g => if g = st.next then freshObj t else st.heap g,
    fun v => if v = u then some st.next else st.cur v,
    st.next + 1⟩)

/-- Overwrite the heap at generation `g` (a field mutation of a live object). -/
def writeHeap (st : Store) (g : Nat) (s : SessionObj) : Store :=
  ⟨fun g2 => if g2 = g then s else st.heap g2, st.cur, st.next⟩

/-- Model of `getSession(userPhone)`: create the session if absent; hard-reset it if
strictly older than the TTL; otherwise return it as is.  The returned `Nat`
is the generation id of the object the caller's reference points at. -/
def getSessionS (ttl : Nat) (st : Store) (u : String) (t : Nat) : Nat × Store :=
  match st.cur u with
  | none => alloc st u t
  | some g =>
    if t - (st.heap g).lastUpdated > ttl then alloc st u t
    else (g, st)

/-- Model of `resetSession(userPhone)`: unconditionally install a fresh object. -/
def resetSessionS (st : Store) (u : String) (t : Nat) : Store :=
  (alloc st u t).2

/-- Model of `updateSession(userPhone, patch)`: `Object.assign(getSession(u), patch)`
followed by `s.lastUpdated = now()`. -/
def updateSessionS (ttl : Nat) (st : Store) (u : String)
    (patch : SessionObj → SessionObj) (t : Nat) : Store :=
  let r := getSessionS ttl st u t
  writeHeap r.2 r.1 { patch (r.2.heap r.1) with lastUpdated := t }

/-- The `finally` block of the inbound handler:
`const s = getSession(userPhone); s.inProgress = false;` — a direct field
write, which does not refresh `lastUpdated`. -/
def finallyUnlockS (ttl : Nat) (st : Store) (u : String) (t : Nat) : Store :=
  let r := getSessionS ttl st u t
  writeHeap r.2 r.1 { r.2.heap r.1 with inProgress := false }

/-! ## Message classifier

`/webhooks/inbound` decides which slot an event fills:
a word-boundary, case-insensitive regex over the free text
(`/\b(selfie|me|face|portrait)\b/`, then
`/\b(clothing|dress|shirt|outfit|attire|wear)\b/`), with a positional
fallback when media is present (`session.selfie ? "clothing" : "selfie"`). -/

/-- Model of `String.prototype.toLowerCase()` for the ASCII range (the vocabulary and
accepted content types are ASCII, and word characters are ASCII, so this
realises the source's lowercasing wherever it matters). -/
def lowerAscii (s : String) : String :=
  ⟨s.data.map Char.toLower⟩

/-- JS `\w`: ASCII letters, digits and underscore. -/
def isWordChar (c : Char) : Bool :=
  c.isAlphanum || c = '_'

/-- Does `w` start at the head of `cs`, with a word boundary right after it?
(`w` itself consists of word characters, so the boundary after the match is
"end of string or a non-word character".) -/
def wordAtHead (w cs : List Char) : Bool :=
  w.isPrefixOf cs &&
    (match cs.drop w.length with
     | [] => true
     | c :: _ => !isWordChar c)

/-- Scan of the regex `/\bw\b/` over `cs`; `prevW` says whether the character
just before `cs` is a word character (so a match may not start here). -/
def containsWordAux (w : List Char) : List Char → Bool → Bool
  | [], _ => false
  | c :: rest, prevW =>
    (!prevW && wordAtHead w (c :: rest)) || containsWordAux w rest (isWordChar c)

/-- Test of `/\bw\b/` against `s`, for a word `w` made of word characters. -/
def containsWord (w s : List Char) : Bool :=
  containsWordAux w s false

/-- Test of an alternation `/\b(w1|w2|...)\b/` against `s`: some alternative occurs as a whole word. -/
def testVocab (ws : List String) (s : String) : Bool :=
  ws.any (fun w => containsWord w.data s.data)

/-- The selfie-indicating vocabulary of the classifier regex. -/
def selfieVocab : List String := ["selfie", "me", "face", "portrait"]

/-- The clothing-indicating vocabulary of the classifier regex. -/
def clothingVocab : List String := ["clothing", "dress", "shirt", "outfit", "attire", "wear"]

/-- The two image slots of a session. -/
inductive Slot where
  | selfie
  | clothing
deriving DecidableEq

/-- The `imageType` decision of the inbound handler: vocabulary first
(selfie before clothing), then the positional fallback when media is present.
`if (text)` treats the empty string as absent. -/
def classifyInbound (text : Option String) (hasMedia : Bool) (hasSelfie : Bool) :
    Option Slot :=
  let fromText : Option Slot :=
    match text with
    | none => none
    | some s =>
      if s = "" then none
      else
        let lower := lowerAscii s
        if testVocab selfieVocab lower then some .selfie
        else if testVocab clothingVocab lower then some .clothing
        else none
  match fromText with
  | some k => some k
  | none =>
    if hasMedia then some (if hasSelfie then .clothing else .selfie) else none

/-- Specification-side reading of "contains a word-boundary match of `w`":
`w` occurs as a contiguous slice whose neighbours (if any) are non-word
characters. -/
def IsWordOccurrence (w s : List Char) : Prop :=
  ∃ pre post, s = pre ++ w ++ post ∧
    (∀ c, pre.getLast? = some c → isWordChar c = false) ∧
    (∀ c, post.head? = some c → isWordChar c = false)

theorem containsWordAux_iff (w : List Char) (hw : w ≠ []) :
    ∀ (cs : List Char) (prev : Bool),
      containsWordAux w cs prev = true ↔
        ∃ pre post, cs = pre ++ w ++ post ∧
          (pre = [] → prev = false) ∧
          (∀ c, pre.getLast? = some c → isWordChar c = false) ∧
          (∀ c, post.head? = some c → isWordChar c = false) := by
  intro cs
  induction cs with
  | nil =>
    intro prev
    simp only [containsWordAux]
    constructor
    · intro hfalse
      exact absurd hfalse (by simp)
    · rintro ⟨pre, post, heq, -, -, -⟩
      have h0 : pre ++ (w ++ post) = [] := by
        simpa [List.append_assoc] using heq.symm
      have h1 : w ++ post = [] := (List.append_eq_nil.mp h0).2
      exact absurd (List.append_eq_nil.mp h1).1 hw
  | cons c rest ih =>
    intro prev
    simp only [containsWordAux, Bool.or_eq_true, Bool.and_eq_true,
      Bool.not_eq_true']
    constructor
    · rintro (⟨hprev, hhead⟩ | htail)
      · -- a match starting at the head of `c :: rest`
        simp only [wordAtHead, Bool.and_eq_true] at hhead
        obtain ⟨hpref, hbound⟩ := hhead
        obtain ⟨post, hpost⟩ := List.isPrefixOf_iff_prefix.mp hpref
        refine ⟨[], post, by simpa using hpost.symm, fun _ => hprev, by simp, ?_⟩
        intro c2 hc2
        have hdrop : (c :: rest).drop w.length = post := by
          rw [← hpost, List.drop_left]
        rw [hdrop] at hbound
        cases post with
        | nil => simp at hc2
        | cons p ps =>
          simp only [List.head?_cons, Option.some.injEq] at hc2
          subst hc2
          simpa using hbound
      · -- a match found strictly inside `rest`
        obtain ⟨pre, post, heq, hpre0, hlast, hhead⟩ := (ih (isWordChar c)).mp htail
        refine ⟨c :: pre, post, by simp [heq], by simp, ?_, hhead⟩
        intro c2 hc2
        cases pre with
        | nil =>
          simp only [List.getLast?_singleton, Option.some.injEq] at hc2
          subst hc2
          exact hpre0 rfl
        | cons p ps =>
          rw [List.getLast?_cons_cons] at hc2
          exact hlast c2 hc2
    · rintro ⟨pre, post, heq, hpre0, hlast, hhead⟩
      cases pre with
      | nil =>
        left
        simp only [List.nil_append] at heq
        refine ⟨hpre0 rfl, ?_⟩
        simp only [wordAtHead, Bool.and_eq_true]
        constructor
        · exact List.isPrefixOf_iff_prefix.mpr ⟨post, heq.symm⟩
        · have hdrop : (c :: rest).drop w.length = post := by
            rw [heq, List.drop_left]
          rw [hdrop]
          cases post with
          | nil => simp
          | cons p ps => simpa using hhead p rfl
      | cons c2 pre2 =>
        right
        have hc : c2 = c ∧ pre2 ++ w ++ post = rest := by
          have := heq
          simp only [List.cons_append, List.cons.injEq] at this
          exact ⟨this.1.symm, this.2.symm⟩
        refine (ih (isWordChar c)).mpr ⟨pre2, post, hc.2.symm, ?_, ?_, hhead⟩
        · intro hpre2
          subst hpre2
          have := hlast c2 (by simp)
          rw [hc.1] at this
          exact this
        · intro c3 hc3
          refine hlast c3 ?_
          cases pre2 with
          | nil => simp at hc3
          | cons p ps => rw [List.getLast?_cons_cons]; exact hc3

theorem containsWord_iff (w : List Char) (hw : w ≠ []) (s : List Char) :
    containsWord w s = true ↔ IsWordOccurrence w s := by
  unfold containsWord IsWordOccurrence
  rw [containsWordAux_iff w hw s false]
  constructor
  · rintro ⟨pre, post, heq, -, hlast, hhead⟩
    exact ⟨pre, post, heq, hlast, hhead⟩
  · rintro ⟨pre, post, heq, hlast, hhead⟩
    exact ⟨pre, post, heq, fun _ => rfl, hlast, hhead⟩

/-- Specification-side selfie condition: the lowercased text contains a
word-boundary occurrence of some selfie-vocabulary word.  (The source
lowercases the text and matches lowercase vocabulary, which realises the
case-insensitive match for this ASCII vocabulary.) -/
def SelfieTextMatch (t : String) : Prop :=
  ∃ w ∈ selfieVocab, IsWordOccurrence w.data (lowerAscii t).data

/-- Specification-side clothing condition, as `SelfieTextMatch`. -/
def ClothingTextMatch (t : String) : Prop :=
  ∃ w ∈ clothingVocab, IsWordOccurrence w.data (lowerAscii t).data

theorem testVocab_iff (ws : List String) (hws : ∀ w ∈ ws, w.data ≠ [])
    (s : String) :
    testVocab ws s = true ↔ ∃ w ∈ ws, IsWordOccurrence w.data s.data := by
  unfold testVocab
  rw [List.any_eq_true]
  constructor
  · rintro ⟨w, hmem, hcw⟩
    exact ⟨w, hmem, (containsWord_iff w.data (hws w hmem) s.data).mp hcw⟩
  · rintro ⟨w, hmem, hocc⟩
    exact ⟨w, hmem, (containsWord_iff w.data (hws w hmem) s.data).mpr hocc⟩

theorem selfieTextMatch_iff (t : String) :
    testVocab selfieVocab (lowerAscii t) = true ↔ SelfieTextMatch t :=
  testVocab_iff selfieVocab (by decide) (lowerAscii t)

theorem clothingTextMatch_iff (t : String) :
    testVocab clothingVocab (lowerAscii t) = true ↔ ClothingTextMatch t :=
  testVocab_iff clothingVocab (by decide) (lowerAscii t)

instance (t : String) : Decidable (SelfieTextMatch t) :=
  decidable_of_iff (testVocab selfieVocab (lowerAscii t) = true) (selfieTextMatch_iff t)

instance (t : String) : Decidable (ClothingTextMatch t) :=
  decidable_of_iff (testVocab clothingVocab (lowerAscii t) = true) (clothingTextMatch_iff t)

/-- The classification rule, written from the specification's words:
selfie vocabulary first, then clothing vocabulary, then the positional
fallback for unlabeled media, else no slot. -/
def classifySpec (text : Option String) (hasMedia : Bool) (hasSelfie : Bool) :
    Option Slot :=
  match text with
  | some t =>
    if SelfieTextMatch t then some .selfie
    else if ClothingTextMatch t then some .clothing
    else if hasMedia then some (if hasSelfie then .clothing else .selfie) else none
  | none =>
    if hasMedia then some (if hasSelfie then .clothing else .selfie) else none

/-! ## Image fetcher

`downloadImageAsBase64IfSupported(url)` as a pure function of the network's
behaviour: the HEAD probe (which may throw, giving `none`), the GET response
and its body bytes. -/

/-- Outcome of the HEAD probe.  `contentType` is `""` when the header is
absent (the `|| ""`), `contentLength` is `0` when absent (the `|| 0`). -/
structure HeadResp where
  status : Nat
  contentType : String
  contentLength : Nat
deriving DecidableEq

/-- Network behaviour backing one `downloadImageAsBase64IfSupported` call.
`head = none` models the HEAD request throwing (caught, returning `null`). -/
structure FetchEnv where
  head : Option HeadResp
  getOk : Bool
  getStatus : Nat
  getContentType : String
  body : List Nat
deriving DecidableEq

/-- The error taxonomy of image ingestion (`e.code` on the thrown errors). -/
inductive FetchErr where
  | fetchForbidden (status : Nat)
  | fetchFailed (status : Nat)
  | tooLarge (size : Nat)
  | unsupportedWebp (ct : String)
  | unsupportedHeic (ct : String)
  | unsupportedType (ct : String)
deriving DecidableEq

/-- The standard base64 alphabet. -/
def base64Alphabet : List Char :=
  "ABCDEFGHIJKLMNOPQRSTUVWXYZabcdefghijklmnopqrstuvwxyz0123456789+/".data

/-- Character for one 6-bit group. -/
def base64Char (n : Nat) : Char :=
  base64Alphabet.getD n 'A'

/-- RFC 4648 base64 of a byte list (`buf.toString("base64")`). -/
def base64EncodeList : List Nat → List Char
  | [] => []
  | [a] =>
    let a := a % 256
    [base64Char (a / 4), base64Char (a % 4 * 16), '=', '=']
  | [a, b] =>
    let a := a % 256
    let b := b % 256
    [base64Char (a / 4), base64Char (a % 4 * 16 + b / 16),
     base64Char (b % 16 * 4), '=']
  | a :: b :: c :: rest =>
    let a := a % 256
    let b := b % 256
    let c := c % 256
    base64Char (a / 4) :: base64Char (a % 4 * 16 + b / 16) ::
      base64Char (b % 16 * 4 + c / 64) :: base64Char (c % 64) ::
      base64EncodeList rest

/-- Byte list to base64 string. -/
def bytesToBase64 (bs : List Nat) : String :=
  ⟨base64EncodeList bs⟩

/-- Model of `String.prototype.includes`: substring containment. -/
def listIncludes (needle : List Char) : List Char → Bool
  | [] => needle.isEmpty
  | c :: rest => needle.isPrefixOf (c :: rest) || listIncludes needle rest

/-- Model of `s.includes(pat)`. -/
def strIncludes (s pat : String) : Bool :=
  listIncludes pat.data s.data

/-- Successful fetch result: `{ base64, mime, size, contentType }`. -/
structure DownloadedImage where
  base64 : String
  mime : String
  size : Nat
  contentType : String
deriving DecidableEq

/-- The payload length the fetcher enforces the limit on: the probe's
content-length when nonzero, else the downloaded byte count
(`headLen || buf.length`). -/
def resolvedLen (env : FetchEnv) : Nat :=
  let headLen : Nat := match env.head with | some h => h.contentLength | none => 0
  if headLen ≠ 0 then headLen else env.body.length

/-- The content type the fetcher sniffs: the probe's, lowercased, when
nonempty, else the GET response's, lowercased (`headCT || (res.headers ...)`). -/
def resolvedCT (env : FetchEnv) : String :=
  let headCT := lowerAscii (match env.head with | some h => h.contentType | none => "")
  if headCT ≠ "" then headCT else lowerAscii env.getContentType

/-- Model of `downloadImageAsBase64IfSupported`: fail fast on a forbidden probe, fail
on an unsuccessful GET, enforce the size limit, then accept only PNG/JPEG by
sniffed content type, normalising the mime. -/
def downloadImageAsBase64IfSupported (maxBytes : Nat) (env : FetchEnv) :
    Except FetchErr DownloadedImage :=
  let headStatus : Nat := match env.head with | some h => h.status | none => 0
  if headStatus = 401 ∨ headStatus = 403 then
    .error (.fetchForbidden headStatus)
  else if env.getOk = false then
    .error
      (if env.getStatus = 401 ∨ env.getStatus = 403 then
        .fetchForbidden env.getStatus
      else .fetchFailed env.getStatus)
  else
    let ct := resolvedCT env
    let len := resolvedLen env
    if len > maxBytes then
      .error (.tooLarge len)
    else
      let isPng := strIncludes ct "image/png"
      let isJpeg := strIncludes ct "image/jpeg" || strIncludes ct "image/jpg"
      if !(isPng || isJpeg) then
        .error
          (if strIncludes ct "image/webp" then .unsupportedWebp ct
          else if strIncludes ct "image/heic" || strIncludes ct "image/heif" then
            .unsupportedHeic ct
          else .unsupportedType ct)
      else
        .ok ⟨bytesToBase64 env.body, if isPng then "image/png" else "image/jpeg",
          len, ct⟩

/-- The guidance text chosen for a failed download (lines picking `tip`). -/
def tipFor (maxBytes : Nat) (e : FetchErr) : String :=
  match e with
  | .unsupportedWebp _ => "That looks like a WEBP. Please resend as PNG or JPEG."
  | .unsupportedHeic _ => "That looks like an iPhone HEIC. Please resend as PNG or JPEG."
  | .tooLarge _ =>
    "That image is too large. Please send a smaller PNG/JPEG (<= " ++
      toString maxBytes ++ " bytes)."
  | .fetchForbidden _ => "The image link was not accessible. Please resend the image."
  | .fetchFailed _ => "Please resend the image as PNG or JPEG."
  | .unsupportedType _ => "Please resend the image as PNG or JPEG."

/-! ## Generation backend response model

The Gemini response shape is untyped and nested, so it is modelled as a JSON
tree; `findInlineData` is the recursive search for the first embedded binary
fragment, tried under both historical key names. -/

/-- Untyped JSON-ish value, fields in insertion order. -/
inductive JVal where
  | null : JVal
  | bool (b : Bool) : JVal
  | num (n : Int) : JVal
  | str (s : String) : JVal
  | arr (elems : List JVal) : JVal
  | obj (fields : List (String × JVal)) : JVal

/-- First field with the given key. -/
def jlookup : List (String × JVal) → String → Option JVal
  | [], _ => none
  | (k, v) :: rest, key => if k = key then some v else jlookup rest key

/-- Property access `v[k]`, `none` for non-objects. -/
def jfield (v : JVal) (k : String) : Option JVal :=
  match v with
  | .obj fs => jlookup fs k
  | _ => none

/-- JS truthiness of a JSON value. -/
def jtruthy : JVal → Bool
  | .null => false
  | .bool b => b
  | .num n => n != 0
  | .str s => s != ""
  | .arr _ => true
  | .obj _ => true

/-- Whether `v?.data` is truthy: `v` is an object with a truthy `data` field. -/
def hasTruthyData (v : JVal) : Bool :=
  match jfield v "data" with
  | some d => jtruthy d
  | none => false

mutual

/-- Model of `findInlineData(obj)`: return `obj.inlineData` or `obj.inline_data` when
it has a truthy `data`, else recurse over array elements / object fields in
order.  (The source's second `Object.keys` pass over an array re-walks the
same elements and cannot find anything the `for...of` pass missed, so one
pass is an equivalent model.) -/
def findInlineData : JVal → Option JVal
  | .obj fs =>
    let il := jlookup fs "inlineData"
    if (match il with | some v => hasTruthyData v | none => false) then il
    else
      let il2 := jlookup fs "inline_data"
      if (match il2 with | some v => hasTruthyData v | none => false) then il2
      else findInFields fs
  | .arr es => findInList es
  | _ => none

/-- Search each field value in order. -/
def findInFields : List (String × JVal) → Option JVal
  | [] => none
  | (_, v) :: rest =>
    match findInlineData v with
    | some r => some r
    | none => findInFields rest

/-- Search each element in order. -/
def findInList : List JVal → Option JVal
  | [] => none
  | v :: rest =>
    match findInlineData v with
    | some r => some r
    | none => findInList rest

end

/-- The `.text` of a stream event / response, `""` when absent.  (In the SDK
this accessor yields a string or `undefined`; non-string shapes are out of
model.) -/
def jtextOf (v : JVal) : String :=
  match jfield v "text" with
  | some (.str s) => s
  | _ => ""

/-- Model of `collectFromStream`: accumulate all emitted text; keep the first inline
fragment found while continuing to consume the stream. -/
def collectFromStream (evs : List JVal) : Option JVal × String :=
  evs.foldl
    (fun acc ev =>
      let tx := acc.2 ++ jtextOf ev
      match acc.1 with
      | some _ => (acc.1, tx)
      | none => (findInlineData ev, tx))
    (none, "")

/-! ## Conversation turn -/

/-- The multimodal request: both images plus the fixed instruction.  It is
built once per turn and shared by the streaming call and the fallback call. -/
structure GenRequest where
  selfie : StoredImage
  clothing : StoredImage
  prompt : String
deriving DecidableEq

/-- The fixed generation instruction of the webhook path. -/
def tryOnPrompt : String :=
  "Create a stylized fashion mock-up by overlaying the clothing (2nd image) onto the person (1st image). Keep it clearly stylized (non-photorealistic), do not modify facial features, simple background."

/-- Externally visible calls a turn issues, in order. -/
inductive Effect where
  | sendTip (tip : String)
  | genStream (req : GenRequest)
  | genFull (req : GenRequest)
  | saveFile (name : String)
  | sendRich (url : String)
  | sendPlainImage (url : String)
  | sendTextLink (url : String)
  | sendApology
  | sendGuidance (msg : String)
deriving DecidableEq

/-- Result of the first atomic segment of a turn (everything up to the
download `await`): the captured session reference, the classified slot, and
the table after `getSession`. -/
structure SegAOut where
  g : Nat
  ity : Option Slot
  st : Store

/-- Lines 234-252: normalise, `getSession`, classify.  The positional
fallback reads `session.selfie` through the captured reference. -/
def segA (ttl : Nat) (st : Store) (u : String) (text : Option String)
    (hasMedia : Bool) (tA : Nat) : SegAOut :=
  let r := getSessionS ttl st u tA
  ⟨r.1, classifyInbound text hasMedia ((r.2.heap r.1).selfie.isSome), r.2⟩

/-- The stored slot value `{ data: img.base64, mime: img.mime, ts: now() }`. -/
def storedOf (img : DownloadedImage) (t : Nat) : StoredImage :=
  ⟨img.base64, img.mime, t⟩

/-- Lines 259-264: a new selfie first clears any stored clothing, then the
classified slot is written; a clothing image just writes its slot. -/
def storeMediaS (ttl : Nat) (st : Store) (u : String) (slot : Slot)
    (img : StoredImage) (t : Nat) : Store :=
  match slot with
  | .selfie =>
    let st1 := updateSessionS ttl st u (fun s => { s with clothing := none }) t
    updateSessionS ttl st1 u (fun s => { s with selfie := some img }) t
  | .clothing =>
    updateSessionS ttl st u (fun s => { s with clothing := some img }) t

/-- Result of the second atomic segment: the table, the ready decision
(`some` carries the selfie/clothing pair the generation will use, read
through the captured reference), and the effects issued so far. -/
structure SegBOut where
  st : Store
  ready : Option (StoredImage × StoredImage)
  effs : List Effect

/-- Default guidance when the event carried neither media nor text. -/
def guidanceDefault : String :=
  "Send a selfie (PNG/JPEG), then a clothing image."

/-- The guidance text of lines 411-419: a state-dependent hint when the event
carried media or truthy text, else the generic starter. -/
def guidanceMsg (text : Option String) (hasMedia : Bool) (hasSelfieNow : Bool) :
    String :=
  let hint :=
    if hasSelfieNow then "Now send a clothing image (PNG/JPEG)."
    else "First send a selfie (PNG/JPEG)."
  let textTruthy := match text with | some s2 => s2 ≠ "" | none => false
  if hasMedia || textTruthy then hint else guidanceDefault

/-- The `if (mediaUrl && imageType)` block: store the downloaded media, or
send the per-error tip when the download failed (the send itself is wrapped
in a swallowed `try`). -/
def storePhase (ttl maxBytes : Nat) (st : Store) (u : String)
    (ity : Option Slot) (hasMedia : Bool)
    (dl : Except FetchErr DownloadedImage) (t : Nat) : Store × List Effect :=
  match hasMedia, ity with
  | true, some slot =>
    match dl with
    | .ok img => (storeMediaS ttl st u slot (storedOf img t) t, [])
    | .error e => (st, [.sendTip (tipFor maxBytes e)])
  | _, _ => (st, [])

/-- The expression `session.selfie && session.clothing && !session.inProgress`
of line 286, returning the two slot values it read when truthy. -/
def readyCheck (s : SessionObj) : Option (StoredImage × StoredImage) :=
  match s.selfie, s.clothing, s.inProgress with
  | some sel, some clo, false => some (sel, clo)
  | _, _, _ => none

/-- Lines 255-290 and 409-421, the segment that runs synchronously after the
download resolves: store the media (or send the error tip), then evaluate
`ready = session.selfie && session.clothing && !session.inProgress` on the
captured reference and either take the lock (`inProgress: true`) in the same
synchronous segment, or fall through to the guidance message. -/
def segB (ttl maxBytes : Nat) (st : Store) (u : String) (g : Nat)
    (ity : Option Slot) (text : Option String) (hasMedia : Bool)
    (dl : Except FetchErr DownloadedImage) (t : Nat) : SegBOut :=
  let step1 := storePhase ttl maxBytes st u ity hasMedia dl t
  let st1 := step1.1
  match readyCheck (st1.heap g) with
  | some p =>
    ⟨updateSessionS ttl st1 u (fun s2 => { s2 with inProgress := true }) t,
      some p, step1.2⟩
  | none =>
    let r := getSessionS ttl st1 u t
    ⟨r.2, none,
      step1.2 ++
        [.sendGuidance (guidanceMsg text hasMedia (r.2.heap r.1).selfie.isSome)]⟩

/-- Result of the generation phase. -/
structure GenOut where
  imagePart : Option JVal
  text : String
  calls : List Effect

/-- Lines 304-322: streaming call, then — only when the stream completed
without throwing and yielded no inline fragment — exactly one non-streaming
call with the same request, searched with the same `findInlineData`.  A
transport error from either call is caught, leaving no image. -/
def segGen (req : GenRequest) (streamResp : Except Unit (List JVal))
    (fullResp : Except Unit JVal) : GenOut :=
  match streamResp with
  | .error _ => ⟨none, "", [.genStream req]⟩
  | .ok evs =>
    let c := collectFromStream evs
    match c.1 with
    | some ip => ⟨some ip, c.2, [.genStream req]⟩
    | none =>
      match fullResp with
      | .error _ => ⟨none, c.2, [.genStream req, .genFull req]⟩
      | .ok full =>
        ⟨findInlineData full, c.2 ++ jtextOf full, [.genStream req, .genFull req]⟩

/-- Environment for one whole turn: the network, the backend, and the
outcome of each Vonage send tier. -/
structure TurnEnv where
  fetch : FetchEnv
  streamResp : Except Unit (List JVal)
  fullResp : Except Unit JVal
  richOk : Bool
  plainOk : Bool
  publicBase : String

/-- The `Date.now()` values of a turn's atomic segments, in program order. -/
structure TurnTimes where
  tA : Nat
  tB : Nat
  tGen : Nat
  tC : Nat

/-- Lines 339-385: the delivery fallback chain.  Each tier is attempted only
if no earlier tier succeeded; every failure is caught and swallowed. -/
def deliverAttempts (env : TurnEnv) (url : String) : List Effect :=
  let afterRich := [Effect.sendRich url]
  if env.richOk then afterRich
  else
    let afterPlain := afterRich ++ [Effect.sendPlainImage url]
    if env.plainOk then afterPlain
    else afterPlain ++ [Effect.sendTextLink url]

/-- Lines 387-406: both terminal outcomes reset the session, and the
`finally` block re-fetches the session and force-clears `inProgress`. -/
def segCStore (ttl : Nat) (st : Store) (u : String) (t : Nat) : Store :=
  finallyUnlockS ttl (resetSessionS st u t) u t

/-- The part of a turn up to and including the ready check: `segA`, the
download, and `segB`. -/
def turnSegB (ttl maxBytes : Nat) (st : Store) (u : String)
    (text : Option String) (hasMedia : Bool) (env : TurnEnv) (tm : TurnTimes) :
    SegBOut :=
  let a := segA ttl st u text hasMedia tm.tA
  let dl := downloadImageAsBase64IfSupported maxBytes env.fetch
  segB ttl maxBytes a.st u a.g a.ity text hasMedia dl tm.tB

/-- One complete `/webhooks/inbound` turn for user `u`. -/
def inboundTurn (ttl maxBytes : Nat) (st : Store) (u : String)
    (text : Option String) (hasMedia : Bool) (env : TurnEnv) (tm : TurnTimes) :
    Store × List Effect :=
  let b := turnSegB ttl maxBytes st u text hasMedia env tm
  match b.ready with
  | none => (b.st, b.effs)
  | some (sel, clo) =>
    let req : GenRequest := ⟨sel, clo, tryOnPrompt⟩
    let gen := segGen req env.streamResp env.fullResp
    if (match gen.imagePart with | some v => hasTruthyData v | none => false) then
      let outFile := "tryon_" ++ u ++ "_" ++ toString tm.tGen ++ ".png"
      let url := env.publicBase ++ "/photos/" ++ outFile
      (segCStore ttl b.st u tm.tC,
        b.effs ++ gen.calls ++ [Effect.saveFile outFile] ++ deliverAttempts env url)
    else
      (segCStore ttl b.st u tm.tC, b.effs ++ gen.calls ++ [Effect.sendApology])

/-! ## Two interleaved turns for one user

Node's cooperative scheduler can interleave two webhook turns for the same
user at their `await` boundaries only.  A turn's session-table footprint is
its three atomic segments (`segA`, `segB`, `segCStore`); the step relation
below lets a demon scheduler interleave the segments of two turns for user
`u`, with an arbitrary wall-clock time at every step (a superset of the real,
monotone clock).  A turn is *generating* between a `segB` that returned
`ready = some _` and its `segCStore`. -/

/-- Program counter of one in-flight turn, at suspension-point granularity. -/
inductive Pc where
  | p0
  | p1 (g : Nat) (ity : Option Slot)
  | p2 (triggered : Bool)
  | p3
deriving DecidableEq

/-- Fixed inputs of one turn in the interleaving model.  `dl` is the outcome
its download would resolve to. -/
structure TurnIn where
  text : Option String
  hasMedia : Bool
  dl : Except FetchErr DownloadedImage

/-- A configuration: the shared session table plus both turns' counters. -/
structure Cfg where
  st : Store
  a : Pc
  b : Pc

/-- One scheduler step: either turn runs its next atomic segment.  Only
triggered turns have a third segment (the reset + finally unlock). -/
inductive Step (ttl maxBytes : Nat) (u : String) (ia ib : TurnIn) :
    Cfg → Cfg → Prop where
  | aA (st : Store) (b : Pc) (t : Nat) :
    Step ttl maxBytes u ia ib ⟨st, .p0, b⟩
      ⟨(segA ttl st u ia.text ia.hasMedia t).st,
        .p1 (segA ttl st u ia.text ia.hasMedia t).g
          (segA ttl st u ia.text ia.hasMedia t).ity, b⟩
  | aB (st : Store) (b : Pc) (g : Nat) (ity : Option Slot) (t : Nat) :
    Step ttl maxBytes u ia ib ⟨st, .p1 g ity, b⟩
      ⟨(segB ttl maxBytes st u g ity ia.text ia.hasMedia ia.dl t).st,
        .p2 (segB ttl maxBytes st u g ity ia.text ia.hasMedia ia.dl t).ready.isSome, b⟩
  | aC (st : Store) (b : Pc) (t : Nat) :
    Step ttl maxBytes u ia ib ⟨st, .p2 true, b⟩ ⟨segCStore ttl st u t, .p3, b⟩
  | bA (st : Store) (a : Pc) (t : Nat) :
    Step ttl maxBytes u ia ib ⟨st, a, .p0⟩
      ⟨(segA ttl st u ib.text ib.hasMedia t).st, a,
        .p1 (segA ttl st u ib.text ib.hasMedia t).g
          (segA ttl st u ib.text ib.hasMedia t).ity⟩
  | bB (st : Store) (a : Pc) (g : Nat) (ity : Option Slot) (t : Nat) :
    Step ttl maxBytes u ia ib ⟨st, a, .p1 g ity⟩
      ⟨(segB ttl maxBytes st u g ity ib.text ib.hasMedia ib.dl t).st, a,
        .p2 (segB ttl maxBytes st u g ity ib.text ib.hasMedia ib.dl t).ready.isSome⟩
  | bC (st : Store) (a : Pc) (t : Nat) :
    Step ttl maxBytes u ia ib ⟨st, a, .p2 true⟩ ⟨segCStore ttl st u t, a, .p3⟩

/-- A session object on which the ready check
`s.selfie && s.clothing && !s.inProgress` fails. -/
def checkFailO (s : SessionObj) : Prop :=
  s.inProgress = true ∨ s.selfie = none ∨ s.clothing = none

/-- A session object that is locked, or has both slots empty. -/
def lockedOrEmptyO (s : SessionObj) : Prop :=
  s.inProgress = true ∨ (s.selfie = none ∧ s.clothing = none)

/-- A turn that has not yet run its ready check. -/
def NonPast (pc : Pc) : Prop :=
  pc = .p0 ∨ ∃ g i, pc = .p1 g i

/-- The inductive safety invariant of the two-turn system.  `goal` is the
claimed property; the other fields strengthen it:
table well-formedness, every stale captured reference points at a
check-failing object, the live object is never ready-and-unlocked while both
turns are still short of their ready check, and while one turn is generating
the live object is locked-or-empty and the other turn's captured object is
check-failing. -/
structure Inv (u : String) (c : Cfg) : Prop where
  wcur : ∀ v g, c.st.cur v = some g → g < c.st.next
  wA : ∀ g i, c.a = .p1 g i → g < c.st.next
  wB : ∀ g i, c.b = .p1 g i → g < c.st.next
  goal : ¬(c.a = .p2 true ∧ c.b = .p2 true)
  staleA : ∀ g i, c.a = .p1 g i → c.st.cur u = some g ∨ checkFailO (c.st.heap g)
  staleB : ∀ g i, c.b = .p1 g i → c.st.cur u = some g ∨ checkFailO (c.st.heap g)
  ng : NonPast c.a → NonPast c.b → ∀ g, c.st.cur u = some g → checkFailO (c.st.heap g)
  trigACur : c.a = .p2 true → NonPast c.b → ∀ g, c.st.cur u = some g →
    lockedOrEmptyO (c.st.heap g)
  trigACap : c.a = .p2 true → ∀ g i, c.b = .p1 g i → checkFailO (c.st.heap g)
  trigBCur : c.b = .p2 true → NonPast c.a → ∀ g, c.st.cur u = some g →
    lockedOrEmptyO (c.st.heap g)
  trigBCap : c.b = .p2 true → ∀ g i, c.a = .p1 g i → checkFailO (c.st.heap g)

/-- Initial-table assumption for the interleaving theorem: well-formed, and
no object is ready-and-unlocked.  Single complete turns preserve this, and
fresh or reset tables satisfy it trivially. -/
def InitOK (c : Cfg) : Prop :=
  (∀ v g, c.st.cur v = some g → g < c.st.next) ∧ (∀ g, checkFailO (c.st.heap g))

/-! ## Concrete sample data

Small closed values used to instantiate the theorems below on concrete
inputs. -/

/-- A small downloaded PNG. -/
def sampleImagePng : DownloadedImage := ⟨"QUJD", "image/png", 3, "image/png"⟩

/-- A stored selfie slot value. -/
def sampleStoredSelfie : StoredImage := ⟨"U0VM", "image/png", 50⟩

/-- A sample user identifier. -/
def sampleUser : String := "447700900000"

/-- A one-session table whose session was last updated at 90000. -/
def c3Store : Store :=
  ⟨fun _ => ⟨some sampleStoredSelfie, none, false, 90000⟩,
   fun v => if v = sampleUser then some 0 else none, 1⟩

/-- The empty session table. -/
def emptyStore : Store := ⟨fun _ => freshObj 0, fun _ => none, 0⟩

/-- An inbound event: labelled selfie with a downloadable PNG. -/
def sampleTurnInA : TurnIn := ⟨some "selfie", true, Except.ok sampleImagePng⟩

/-- An inbound event with no media whose download would fail. -/
def sampleTurnInB : TurnIn := ⟨none, false, Except.error (FetchErr.fetchFailed 500)⟩

/-- A fetch environment delivering a small JPEG (probe gives no length). -/
def sampleFetchOkJpeg : FetchEnv :=
  ⟨some ⟨200, "image/jpeg", 0⟩, true, 200, "", [65, 66, 67]⟩

/-- A fetch environment whose probe declares an oversized WEBP. -/
def sampleFetchWebpBig : FetchEnv :=
  ⟨some ⟨200, "image/webp", 99999999⟩, true, 200, "", []⟩

/-- A fetch environment with a small WEBP. -/
def sampleFetchWebpSmall : FetchEnv :=
  ⟨some ⟨200, "image/webp", 100⟩, true, 200, "", []⟩

/-- A generation response carrying an inline image fragment. -/
def sampleGenImage : JVal :=
  JVal.obj [("inlineData", JVal.obj [("data", JVal.str "SU1H")])]

/-- A turn environment: empty stream, image on the fallback call, rich tier
succeeding. -/
def sampleTurnEnv : TurnEnv :=
  ⟨sampleFetchOkJpeg, Except.ok [], Except.ok sampleGenImage, true, true,
   "https://example.test"⟩

/-- A table holding a selfie stored at time 50 for `sampleUser`. -/
def c6Store : Store :=
  ⟨fun _ => ⟨some sampleStoredSelfie, none, false, 50⟩,
   fun v => if v = sampleUser then some 0 else none, 1⟩

/-- All segment clocks of a sample turn at 60. -/
def sampleTimes : TurnTimes := ⟨60, 60, 60, 60⟩

/-- The clothing slot value produced by storing `sampleFetchOkJpeg`'s body at
time 60 (its bytes are `"ABC"`, hence base64 `"QUJD"`). -/
def sampleStoredClothing : StoredImage := ⟨"QUJD", "image/jpeg", 60⟩

/-- A sample generation request. -/
def sampleReq : GenRequest := ⟨sampleStoredSelfie, sampleStoredClothing, tryOnPrompt⟩

/-! ## Store-operation lemmas -/

/-- Characterisation of `getSessionS`: either the call returns the stored
session untouched, or it installs (and returns) a freshly allocated one. -/
theorem getSessionS_spec (ttl : Nat) (st : Store) (u : String) (t : Nat) :
    ((getSessionS ttl st u t).2 = st ∧ st.cur u = some (getSessionS ttl st u t).1) ∨
      ((getSessionS ttl st u t).1 = st.next ∧
        (getSessionS ttl st u t).2 = (alloc st u t).2) := by
  unfold getSessionS
  cases h : st.cur u with
  | none => simp [h, alloc]
  | some g =>
    by_cases hexp : t - (st.heap g).lastUpdated > ttl
    · simp [h, hexp, alloc]
    · simp [h, hexp]


theorem alloc_fst (st : Store) (u : String) (t : Nat) :
    (alloc st u t).1 = st.next := rfl

theorem alloc_next (st : Store) (u : String) (t : Nat) :
    (alloc st u t).2.next = st.next + 1 := rfl

theorem alloc_heap_new (st : Store) (u : String) (t : Nat) :
    (alloc st u t).2.heap st.next = freshObj t := by
  simp [alloc]

theorem alloc_heap_ne (st : Store) (u : String) (t g : Nat) (h : g ≠ st.next) :
    (alloc st u t).2.heap g = st.heap g := by
  simp [alloc, h]

theorem alloc_cur_self (st : Store) (u : String) (t : Nat) :
    (alloc st u t).2.cur u = some st.next := by
  simp [alloc]

theorem alloc_cur_ne (st : Store) (u v : String) (t : Nat) (h : v ≠ u) :
    (alloc st u t).2.cur v = st.cur v := by
  simp [alloc, h]

theorem writeHeap_heap_self (st : Store) (g : Nat) (s : SessionObj) :
    (writeHeap st g s).heap g = s := by
  simp [writeHeap]

theorem writeHeap_heap_ne (st : Store) (g g2 : Nat) (s : SessionObj)
    (h : g2 ≠ g) : (writeHeap st g s).heap g2 = st.heap g2 := by
  simp [writeHeap, h]

theorem writeHeap_cur (st : Store) (g : Nat) (s : SessionObj) :
    (writeHeap st g s).cur = st.cur := rfl

theorem writeHeap_next (st : Store) (g : Nat) (s : SessionObj) :
    (writeHeap st g s).next = st.next := rfl

theorem getS_cur_self (ttl : Nat) (st : Store) (u : String) (t : Nat) :
    (getSessionS ttl st u t).2.cur u = some (getSessionS ttl st u t).1 := by
  rcases getSessionS_spec ttl st u t with ⟨h1, h2⟩ | ⟨h1, h2⟩
  · rw [h1]; exact h2
  · rw [h2, h1]; exact alloc_cur_self st u t

theorem getS_noexp (ttl : Nat) (st : Store) (u : String) (t g : Nat)
    (h : st.cur u = some g) (hne : ¬(t - (st.heap g).lastUpdated > ttl)) :
    getSessionS ttl st u t = (g, st) := by
  unfold getSessionS
  rw [h]
  simp [hne]

theorem getS_heap_cases (ttl : Nat) (st : Store) (u : String) (t : Nat)
    (g : Nat) :
    (getSessionS ttl st u t).2.heap g = st.heap g ∨
      ((getSessionS ttl st u t).2.heap g = freshObj t ∧ g = st.next ∧
        (getSessionS ttl st u t).1 = st.next) := by
  rcases getSessionS_spec ttl st u t with ⟨h1, h2⟩ | ⟨h1, h2⟩
  · rw [h1]; exact Or.inl rfl
  · rw [h2]
    by_cases hg : g = st.next
    · subst hg
      exact Or.inr ⟨alloc_heap_new st u t, rfl, h1⟩
    · exact Or.inl (alloc_heap_ne st u t g hg)

theorem getS_heap_lt (ttl : Nat) (st : Store) (u : String) (t g : Nat)
    (h : g < st.next) : (getSessionS ttl st u t).2.heap g = st.heap g := by
  rcases getS_heap_cases ttl st u t g with h1 | ⟨-, h2, -⟩
  · exact h1
  · exact absurd h2 (Nat.ne_of_lt h)

theorem getS_cur_ne (ttl : Nat) (st : Store) (u v : String) (t : Nat)
    (h : v ≠ u) : (getSessionS ttl st u t).2.cur v = st.cur v := by
  rcases getSessionS_spec ttl st u t with ⟨h1, -⟩ | ⟨-, h1⟩
  · rw [h1]
  · rw [h1]; exact alloc_cur_ne st u v t h

theorem getS_next_mono (ttl : Nat) (st : Store) (u : String) (t : Nat) :
    st.next ≤ (getSessionS ttl st u t).2.next := by
  rcases getSessionS_spec ttl st u t with ⟨h1, -⟩ | ⟨-, h1⟩
  · rw [h1]
  · rw [h1, alloc_next]; omega

theorem getS_fst_lt (ttl : Nat) (st : Store) (u : String) (t : Nat)
    (hw : ∀ v g, st.cur v = some g → g < st.next) :
    (getSessionS ttl st u t).1 < (getSessionS ttl st u t).2.next := by
  rcases getSessionS_spec ttl st u t with ⟨h1, h2⟩ | ⟨h1, h2⟩
  · rw [h1]; exact hw u _ h2
  · rw [h1, h2, alloc_next]; omega

theorem getS_wcur (ttl : Nat) (st : Store) (u : String) (t : Nat)
    (hw : ∀ v g, st.cur v = some g → g < st.next) :
    ∀ v g, (getSessionS ttl st u t).2.cur v = some g →
      g < (getSessionS ttl st u t).2.next := by
  intro v g hg
  rcases getSessionS_spec ttl st u t with ⟨h1, -⟩ | ⟨-, h1⟩
  · rw [h1] at hg ⊢; exact hw v g hg
  · rw [h1] at hg ⊢
    rw [alloc_next]
    by_cases hv : v = u
    · subst hv
      rw [alloc_cur_self] at hg
      simp only [Option.some.injEq] at hg
      omega
    · rw [alloc_cur_ne st u v t hv] at hg
      have := hw v g hg
      omega

/-- Master characterisation of `updateSessionS`: the write lands on the
(possibly freshly reset) current object; every other cell is untouched. -/
theorem updS_spec (ttl : Nat) (st : Store) (u : String)
    (P : SessionObj → SessionObj) (t : Nat) :
    ∃ gc old,
      (updateSessionS ttl st u P t).cur u = some gc ∧
      (updateSessionS ttl st u P t).heap gc = { P old with lastUpdated := t } ∧
      (∀ g2, g2 ≠ gc → (updateSessionS ttl st u P t).heap g2 = st.heap g2) ∧
      ((old = st.heap gc ∧ st.cur u = some gc ∧
          (updateSessionS ttl st u P t).next = st.next) ∨
        (old = freshObj t ∧ gc = st.next ∧
          (updateSessionS ttl st u P t).next = st.next + 1)) ∧
      (∀ v, v ≠ u → (updateSessionS ttl st u P t).cur v = st.cur v) := by
  have e : updateSessionS ttl st u P t =
      writeHeap (getSessionS ttl st u t).2 (getSessionS ttl st u t).1
        { P ((getSessionS ttl st u t).2.heap (getSessionS ttl st u t).1) with
            lastUpdated := t } := rfl
  rcases getSessionS_spec ttl st u t with ⟨h1, h2⟩ | ⟨h1, h2⟩
  · refine ⟨(getSessionS ttl st u t).1, st.heap (getSessionS ttl st u t).1,
      ?_, ?_, ?_, ?_, ?_⟩
    · rw [e, writeHeap_cur, h1]; exact h2
    · rw [e, h1, writeHeap_heap_self]
    · intro g2 hg2; rw [e, h1, writeHeap_heap_ne _ _ _ _ hg2]
    · refine Or.inl ⟨rfl, h2, ?_⟩
      rw [e, writeHeap_next, h1]
    · intro v hv; rw [e, writeHeap_cur, h1]
  · refine ⟨st.next, freshObj t, ?_, ?_, ?_, ?_, ?_⟩
    · rw [e, writeHeap_cur, h2]; exact alloc_cur_self st u t
    · rw [e, h1, h2, alloc_heap_new, writeHeap_heap_self]
    · intro g2 hg2
      rw [e, h1, h2, writeHeap_heap_ne _ _ _ _ hg2, alloc_heap_ne st u t g2 hg2]
    · refine Or.inr ⟨rfl, rfl, ?_⟩
      rw [e, writeHeap_next, h2, alloc_next]
    · intro v hv; rw [e, writeHeap_cur, h2]; exact alloc_cur_ne st u v t hv

/-- When the current session cannot be TTL-expired (in particular right after
a same-instant update), `updateSessionS` writes exactly the current cell. -/
theorem updS_current (ttl : Nat) (st : Store) (u : String)
    (P : SessionObj → SessionObj) (t g : Nat)
    (h : st.cur u = some g) (hne : ¬(t - (st.heap g).lastUpdated > ttl)) :
    updateSessionS ttl st u P t =
      writeHeap st g { P (st.heap g) with lastUpdated := t } := by
  have e : updateSessionS ttl st u P t =
      writeHeap (getSessionS ttl st u t).2 (getSessionS ttl st u t).1
        { P ((getSessionS ttl st u t).2.heap (getSessionS ttl st u t).1) with
            lastUpdated := t } := rfl
  rw [e, getS_noexp ttl st u t g h hne]

theorem updS_next_mono (ttl : Nat) (st : Store) (u : String)
    (P : SessionObj → SessionObj) (t : Nat) :
    st.next ≤ (updateSessionS ttl st u P t).next := by
  obtain ⟨gc, old, -, -, -, hc, -⟩ := updS_spec ttl st u P t
  rcases hc with ⟨-, -, h⟩ | ⟨-, -, h⟩ <;> omega

theorem updS_wcur (ttl : Nat) (st : Store) (u : String)
    (P : SessionObj → SessionObj) (t : Nat)
    (hw : ∀ v g, st.cur v = some g → g < st.next) :
    ∀ v g, (updateSessionS ttl st u P t).cur v = some g →
      g < (updateSessionS ttl st u P t).next := by
  intro v g hg
  have e : updateSessionS ttl st u P t =
      writeHeap (getSessionS ttl st u t).2 (getSessionS ttl st u t).1
        { P ((getSessionS ttl st u t).2.heap (getSessionS ttl st u t).1) with
            lastUpdated := t } := rfl
  rw [e, writeHeap_cur] at hg
  rw [e, writeHeap_next]
  exact getS_wcur ttl st u t hw v g hg

theorem resetS_cur_self (st : Store) (u : String) (t : Nat) :
    (resetSessionS st u t).cur u = some st.next :=
  alloc_cur_self st u t

theorem resetS_heap_new (st : Store) (u : String) (t : Nat) :
    (resetSessionS st u t).heap st.next = freshObj t :=
  alloc_heap_new st u t

theorem resetS_heap_ne (st : Store) (u : String) (t g : Nat) (h : g ≠ st.next) :
    (resetSessionS st u t).heap g = st.heap g :=
  alloc_heap_ne st u t g h

/-- The reset-plus-finally footprint: a fresh unlocked empty object becomes
current; all previously allocated cells are untouched. -/
theorem segC_spec (ttl : Nat) (st : Store) (u : String) (t : Nat) :
    (segCStore ttl st u t).cur u = some st.next ∧
    (segCStore ttl st u t).heap st.next = freshObj t ∧
    (∀ g, g ≠ st.next → (segCStore ttl st u t).heap g = st.heap g) ∧
    (segCStore ttl st u t).next = st.next + 1 ∧
    (∀ v, v ≠ u → (segCStore ttl st u t).cur v = st.cur v) := by
  have hcur : (resetSessionS st u t).cur u = some st.next := resetS_cur_self st u t
  have hheap : (resetSessionS st u t).heap st.next = freshObj t := resetS_heap_new st u t
  have hne : ¬(t - ((resetSessionS st u t).heap st.next).lastUpdated > ttl) := by
    rw [hheap]
    simp [freshObj]
  have e : segCStore ttl st u t =
      writeHeap (getSessionS ttl (resetSessionS st u t) u t).2
        (getSessionS ttl (resetSessionS st u t) u t).1
        { (getSessionS ttl (resetSessionS st u t) u t).2.heap
            (getSessionS ttl (resetSessionS st u t) u t).1 with
            inProgress := false } := rfl
  rw [e, getS_noexp ttl (resetSessionS st u t) u t st.next hcur hne]
  refine ⟨?_, ?_, ?_, ?_, ?_⟩
  · rw [writeHeap_cur]; exact hcur
  · rw [writeHeap_heap_self, hheap]
    rfl
  · intro g hg
    rw [writeHeap_heap_ne _ _ _ _ hg]
    exact resetS_heap_ne st u t g hg
  · rw [writeHeap_next]
    exact alloc_next st u t
  · intro v hv
    rw [writeHeap_cur]
    exact alloc_cur_ne st u v t hv

/-! ## Segment-level lemmas -/

/-- Footprint of the store phase: either it does not touch the table, or it
rewrites exactly the (possibly freshly reset) current cell, with a
selfie-shaped or clothing-shaped value. -/
theorem storePhase_spec (ttl maxB : Nat) (st : Store) (u : String)
    (ity : Option Slot) (hm : Bool) (dl : Except FetchErr DownloadedImage)
    (t : Nat) :
    (storePhase ttl maxB st u ity hm dl t).1 = st ∨
    (∃ gc old img,
      (storePhase ttl maxB st u ity hm dl t).1.cur u = some gc ∧
      (∀ g2, g2 ≠ gc → (storePhase ttl maxB st u ity hm dl t).1.heap g2 = st.heap g2) ∧
      (∀ v, v ≠ u → (storePhase ttl maxB st u ity hm dl t).1.cur v = st.cur v) ∧
      ((old = st.heap gc ∧ st.cur u = some gc ∧
          (storePhase ttl maxB st u ity hm dl t).1.next = st.next) ∨
        (old = freshObj t ∧ gc = st.next ∧
          (storePhase ttl maxB st u ity hm dl t).1.next = st.next + 1)) ∧
      ((storePhase ttl maxB st u ity hm dl t).1.heap gc =
          ⟨some img, none, old.inProgress, t⟩ ∨
        (storePhase ttl maxB st u ity hm dl t).1.heap gc =
          ⟨old.selfie, some img, old.inProgress, t⟩)) := by
  cases hm with
  | false => exact Or.inl rfl
  | true =>
    cases ity with
    | none => exact Or.inl rfl
    | some slot =>
      cases dl with
      | error e => exact Or.inl rfl
      | ok img =>
        right
        cases slot with
        | clothing =>
          have e : (storePhase ttl maxB st u (some Slot.clothing) true
              (Except.ok img) t).1 =
              updateSessionS ttl st u
                (fun s => { s with clothing := some (storedOf img t) }) t := rfl
          obtain ⟨gc, old, hcur, hheap, hother, hcase, hcuro⟩ :=
            updS_spec ttl st u (fun s => { s with clothing := some (storedOf img t) }) t
          rw [e]
          refine ⟨gc, old, storedOf img t, hcur, hother, hcuro, hcase, ?_⟩
          right
          rw [hheap]
        | selfie =>
          have e : (storePhase ttl maxB st u (some Slot.selfie) true
              (Except.ok img) t).1 =
              storeMediaS ttl st u Slot.selfie (storedOf img t) t := rfl
          obtain ⟨gc, old, hcur, hheap, hother, hcase, hcuro⟩ :=
            updS_spec ttl st u (fun s => { s with clothing := none }) t
          set st1 := updateSessionS ttl st u (fun s => { s with clothing := none }) t
            with hst1
          have hval : st1.heap gc = ⟨old.selfie, none, old.inProgress, t⟩ := hheap
          have hlu : ¬(t - (st1.heap gc).lastUpdated > ttl) := by
            rw [hval]
            simp
          have efin : storeMediaS ttl st u Slot.selfie (storedOf img t) t =
              updateSessionS ttl st1 u
                (fun s => { s with selfie := some (storedOf img t) }) t := rfl
          have hcurrent := updS_current ttl st1 u
            (fun s => { s with selfie := some (storedOf img t) }) t gc hcur hlu
          rw [e, efin, hcurrent]
          refine ⟨gc, old, storedOf img t, ?_, ?_, ?_, ?_, ?_⟩
          · rw [writeHeap_cur]; exact hcur
          · intro g2 hg2
            rw [writeHeap_heap_ne _ _ _ _ hg2]
            exact hother g2 hg2
          · intro v hv
            rw [writeHeap_cur]
            exact hcuro v hv
          · rcases hcase with ⟨h1, h2, h3⟩ | ⟨h1, h2, h3⟩
            · refine Or.inl ⟨h1, h2, ?_⟩
              rw [writeHeap_next]; exact h3
            · refine Or.inr ⟨h1, h2, ?_⟩
              rw [writeHeap_next]; exact h3
          · left
            rw [writeHeap_heap_self, hval]

theorem readyCheck_none_iff (s : SessionObj) :
    readyCheck s = none ↔ checkFailO s := by
  rcases hsel : s.selfie with - | sel <;>
    rcases hclo : s.clothing with - | clo <;>
      cases hpro : s.inProgress <;>
        simp [readyCheck, hsel, hclo, hpro, checkFailO]

theorem readyCheck_some (s : SessionObj) (sel clo : StoredImage)
    (h : readyCheck s = some (sel, clo)) :
    s.selfie = some sel ∧ s.clothing = some clo ∧ s.inProgress = false := by
  rcases hsel : s.selfie with - | sel2 <;>
    rcases hclo : s.clothing with - | clo2 <;>
      cases hpro : s.inProgress <;>
        simp_all [readyCheck]

/-- When the ready check fails on the captured object, `segB` does not
trigger and finishes with the guidance-branch `getSession`. -/
theorem segB_notready (ttl maxB : Nat) (st : Store) (u : String) (g : Nat)
    (ity : Option Slot) (text : Option String) (hm : Bool)
    (dl : Except FetchErr DownloadedImage) (t : Nat)
    (h : checkFailO ((storePhase ttl maxB st u ity hm dl t).1.heap g)) :
    (segB ttl maxB st u g ity text hm dl t).ready = none ∧
    (segB ttl maxB st u g ity text hm dl t).st =
      (getSessionS ttl (storePhase ttl maxB st u ity hm dl t).1 u t).2 := by
  have hrc : readyCheck ((storePhase ttl maxB st u ity hm dl t).1.heap g) = none :=
    (readyCheck_none_iff _).mpr h
  constructor <;> simp [segB, hrc]

/-- When the ready check passes on the captured object, `segB` triggers and
takes the lock in the same segment. -/
theorem segB_ready_eval (ttl maxB : Nat) (st : Store) (u : String) (g : Nat)
    (ity : Option Slot) (text : Option String) (hm : Bool)
    (dl : Except FetchErr DownloadedImage) (t : Nat)
    (sel clo : StoredImage)
    (hrc : readyCheck ((storePhase ttl maxB st u ity hm dl t).1.heap g) =
      some (sel, clo)) :
    (segB ttl maxB st u g ity text hm dl t).ready = some (sel, clo) ∧
    (segB ttl maxB st u g ity text hm dl t).st =
      updateSessionS ttl (storePhase ttl maxB st u ity hm dl t).1 u
        (fun s2 => { s2 with inProgress := true }) t := by
  constructor <;> simp [segB, hrc]

/-- A triggering `segB` leaves the table's current object locked. -/
theorem segB_trig_lock (ttl maxB : Nat) (st : Store) (u : String) (g : Nat)
    (ity : Option Slot) (text : Option String) (hm : Bool)
    (dl : Except FetchErr DownloadedImage) (t : Nat)
    (h : (segB ttl maxB st u g ity text hm dl t).ready.isSome = true) :
    ∃ gL, (segB ttl maxB st u g ity text hm dl t).st.cur u = some gL ∧
      ((segB ttl maxB st u g ity text hm dl t).st.heap gL).inProgress = true := by
  rcases hrc : readyCheck ((storePhase ttl maxB st u ity hm dl t).1.heap g)
    with - | ⟨sel, clo⟩
  · rw [(segB_notready ttl maxB st u g ity text hm dl t
      ((readyCheck_none_iff _).mp hrc)).1] at h
    exact absurd h (by simp)
  · have heval := (segB_ready_eval ttl maxB st u g ity text hm dl t
      sel clo hrc).2
    rw [heval]
    obtain ⟨gc, old, hcur, hheap, -, -, -⟩ :=
      updS_spec ttl (storePhase ttl maxB st u ity hm dl t).1 u
        (fun s2 => { s2 with inProgress := true }) t
    refine ⟨gc, hcur, ?_⟩
    rw [hheap]

theorem checkFailO_fresh (t : Nat) : checkFailO (freshObj t) :=
  Or.inr (Or.inl rfl)

theorem lockedOrEmptyO_fresh (t : Nat) : lockedOrEmptyO (freshObj t) :=
  Or.inr ⟨rfl, rfl⟩

theorem lockedOrEmptyO_checkFail (s : SessionObj) (h : lockedOrEmptyO s) :
    checkFailO s := by
  rcases h with h | ⟨h, -⟩
  · exact Or.inl h
  · exact Or.inr (Or.inl h)

theorem segA_st (ttl : Nat) (st : Store) (u : String) (text : Option String)
    (hm : Bool) (t : Nat) :
    (segA ttl st u text hm t).st = (getSessionS ttl st u t).2 := rfl

theorem segA_g (ttl : Nat) (st : Store) (u : String) (text : Option String)
    (hm : Bool) (t : Nat) :
    (segA ttl st u text hm t).g = (getSessionS ttl st u t).1 := rfl

theorem storePhase_next_mono (ttl maxB : Nat) (st : Store) (u : String)
    (ity : Option Slot) (hm : Bool) (dl : Except FetchErr DownloadedImage)
    (t : Nat) : st.next ≤ (storePhase ttl maxB st u ity hm dl t).1.next := by
  rcases storePhase_spec ttl maxB st u ity hm dl t with hid |
    ⟨gc, old, img, -, -, -, hcase, -⟩
  · rw [hid]
  · rcases hcase with ⟨-, -, h⟩ | ⟨-, -, h⟩ <;> omega

theorem storePhase_wcur (ttl maxB : Nat) (st : Store) (u : String)
    (ity : Option Slot) (hm : Bool) (dl : Except FetchErr DownloadedImage)
    (t : Nat) (hw : ∀ v g, st.cur v = some g → g < st.next) :
    ∀ v g, (storePhase ttl maxB st u ity hm dl t).1.cur v = some g →
      g < (storePhase ttl maxB st u ity hm dl t).1.next := by
  intro v g hg
  rcases storePhase_spec ttl maxB st u ity hm dl t with hid |
    ⟨gc, old, img, hcur, -, hcuro, hcase, -⟩
  · rw [hid] at hg ⊢; exact hw v g hg
  · by_cases hv : v = u
    · rw [hv, hcur] at hg
      simp only [Option.some.injEq] at hg
      rcases hcase with ⟨-, hcc, hn⟩ | ⟨-, hgc, hn⟩
      · have h2 := hw u gc hcc
        omega
      · omega
    · rw [hcuro v hv] at hg
      have h1 := hw v g hg
      rcases hcase with ⟨-, -, hn⟩ | ⟨-, -, hn⟩ <;> omega

theorem segB_next_mono (ttl maxB : Nat) (st : Store) (u : String) (g : Nat)
    (ity : Option Slot) (text : Option String) (hm : Bool)
    (dl : Except FetchErr DownloadedImage) (t : Nat) :
    st.next ≤ (segB ttl maxB st u g ity text hm dl t).st.next := by
  rcases hrc : readyCheck ((storePhase ttl maxB st u ity hm dl t).1.heap g)
    with - | ⟨sel, clo⟩
  · rw [(segB_notready ttl maxB st u g ity text hm dl t
      ((readyCheck_none_iff _).mp hrc)).2]
    exact le_trans (storePhase_next_mono ttl maxB st u ity hm dl t)
      (getS_next_mono ttl _ u t)
  · rw [(segB_ready_eval ttl maxB st u g ity text hm dl t sel clo hrc).2]
    exact le_trans (storePhase_next_mono ttl maxB st u ity hm dl t)
      (updS_next_mono ttl _ u _ t)

theorem segB_wcur (ttl maxB : Nat) (st : Store) (u : String) (g : Nat)
    (ity : Option Slot) (text : Option String) (hm : Bool)
    (dl : Except FetchErr DownloadedImage) (t : Nat)
    (hw : ∀ v g2, st.cur v = some g2 → g2 < st.next) :
    ∀ v g2, (segB ttl maxB st u g ity text hm dl t).st.cur v = some g2 →
      g2 < (segB ttl maxB st u g ity text hm dl t).st.next := by
  have hw1 := storePhase_wcur ttl maxB st u ity hm dl t hw
  rcases hrc : readyCheck ((storePhase ttl maxB st u ity hm dl t).1.heap g)
    with - | ⟨sel, clo⟩
  · rw [(segB_notready ttl maxB st u g ity text hm dl t
      ((readyCheck_none_iff _).mp hrc)).2]
    exact getS_wcur ttl _ u t hw1
  · rw [(segB_ready_eval ttl maxB st u g ity text hm dl t sel clo hrc).2]
    exact updS_wcur ttl _ u _ t hw1

/-- With the live object locked-or-empty (the other turn holds the lock) and
this turn's captured object check-failing, `segB` cannot trigger. -/
theorem segB_locked_noready (ttl maxB : Nat) (st : Store) (u : String)
    (g : Nat) (ity : Option Slot) (text : Option String) (hm : Bool)
    (dl : Except FetchErr DownloadedImage) (t : Nat)
    (hcurL : ∀ gc, st.cur u = some gc → lockedOrEmptyO (st.heap gc))
    (hg : checkFailO (st.heap g)) :
    (segB ttl maxB st u g ity text hm dl t).ready = none := by
  have h1 : checkFailO ((storePhase ttl maxB st u ity hm dl t).1.heap g) := by
    rcases storePhase_spec ttl maxB st u ity hm dl t with hid |
      ⟨gc, old, img, hcur, hother, hcuro, hcase, hval⟩
    · rw [hid]; exact hg
    · by_cases hgg : g = gc
      · subst hgg
        rcases hval with hv | hv
        · rw [hv]; right; right; rfl
        · rcases hcase with ⟨hold, hcc, -⟩ | ⟨hold, -, -⟩
          · rcases hcurL g hcc with hl | ⟨hs, -⟩
            · rw [hv, hold]; left; exact hl
            · rw [hv, hold]; right; left; exact hs
          · rw [hv, hold]; right; left; rfl
      · rw [hother g hgg]; exact hg
  exact (segB_notready ttl maxB st u g ity text hm dl t h1).1

/-- Bookkeeping for a `segB` of one turn with respect to the other turn's
captured object `gA`: the captured object either becomes the live one or
stays check-failing; and when this `segB` triggers, `gA` is check-failing
afterwards (the lock lands on it, or it is untouched). -/
theorem segB_neutral (ttl maxB : Nat) (st : Store) (u : String) (gB : Nat)
    (ityB : Option Slot) (text : Option String) (hm : Bool)
    (dl : Except FetchErr DownloadedImage) (t : Nat) (gA : Nat)
    (hwA : gA < st.next)
    (hpreA : checkFailO (st.heap gA)) :
    ((segB ttl maxB st u gB ityB text hm dl t).st.cur u = some gA ∨
      checkFailO ((segB ttl maxB st u gB ityB text hm dl t).st.heap gA)) ∧
    ((segB ttl maxB st u gB ityB text hm dl t).ready.isSome = true →
      checkFailO ((segB ttl maxB st u gB ityB text hm dl t).st.heap gA)) := by
  rcases storePhase_spec ttl maxB st u ityB hm dl t with hid |
    ⟨gc, old, img, hcur, hother, hcuro, hcase, hval⟩
  · -- the store phase did not run: the turn cannot have written anything yet
    rcases hrc : readyCheck ((storePhase ttl maxB st u ityB hm dl t).1.heap gB)
      with - | ⟨sel, clo⟩
    · obtain ⟨hr, hs⟩ := segB_notready ttl maxB st u gB ityB text hm dl t
        ((readyCheck_none_iff _).mp hrc)
      constructor
      · right
        rw [hs, hid]
        rcases getS_heap_cases ttl st u t gA with h1 | ⟨-, h2, -⟩
        · rw [h1]; exact hpreA
        · exact absurd h2 (Nat.ne_of_lt hwA)
      · intro htrig
        rw [hr] at htrig
        exact absurd htrig (by simp)
    · obtain ⟨hr, hs⟩ := segB_ready_eval ttl maxB st u gB ityB text hm dl t
        sel clo hrc
      rw [hid] at hs
      obtain ⟨gc2, old2, hcur2, hheap2, hother2, hcase2, -⟩ :=
        updS_spec ttl st u (fun s2 => { s2 with inProgress := true }) t
      constructor
      · by_cases hgg : gA = gc2
        · subst hgg; left; rw [hs]; exact hcur2
        · right; rw [hs, hother2 gA hgg]; exact hpreA
      · intro hx
        by_cases hgg : gA = gc2
        · subst hgg; rw [hs, hheap2]; left; rfl
        · rw [hs, hother2 gA hgg]; exact hpreA
  · -- the store phase wrote the (possibly reset) current cell `gc`
    have hlu : ((storePhase ttl maxB st u ityB hm dl t).1.heap gc).lastUpdated
        = t := by
      rcases hval with hv | hv <;> rw [hv]
    have hnoexp : ¬(t - ((storePhase ttl maxB st u ityB hm dl t).1.heap gc).lastUpdated > ttl) := by
      rw [hlu]; simp
    rcases hrc : readyCheck ((storePhase ttl maxB st u ityB hm dl t).1.heap gB)
      with - | ⟨sel, clo⟩
    · obtain ⟨hr, hs⟩ := segB_notready ttl maxB st u gB ityB text hm dl t
        ((readyCheck_none_iff _).mp hrc)
      rw [getS_noexp ttl _ u t gc hcur hnoexp] at hs
      constructor
      · by_cases hgg : gA = gc
        · subst hgg; left; rw [hs]; exact hcur
        · right; rw [hs, hother gA hgg]; exact hpreA
      · intro htrig
        rw [hr] at htrig
        exact absurd htrig (by simp)
    · obtain ⟨hr, hs⟩ := segB_ready_eval ttl maxB st u gB ityB text hm dl t
        sel clo hrc
      rw [updS_current ttl _ u _ t gc hcur hnoexp] at hs
      constructor
      · by_cases hgg : gA = gc
        · subst hgg; left; rw [hs, writeHeap_cur]; exact hcur
        · right; rw [hs, writeHeap_heap_ne _ _ _ _ hgg, hother gA hgg]
          exact hpreA
      · intro hx
        by_cases hgg : gA = gc
        · subst hgg; rw [hs, writeHeap_heap_self]; left; rfl
        · rw [hs, writeHeap_heap_ne _ _ _ _ hgg, hother gA hgg]
          exact hpreA

theorem nonPast_p0 : NonPast .p0 := Or.inl rfl

theorem nonPast_p1 (g : Nat) (i : Option Slot) : NonPast (.p1 g i) :=
  Or.inr ⟨g, i, rfl⟩

theorem not_nonPast_p2 (tr : Bool) : ¬ NonPast (.p2 tr) := by
  rintro (h | ⟨g, i, h⟩) <;> exact absurd h (by simp)

theorem not_nonPast_p3 : ¬ NonPast .p3 := by
  rintro (h | ⟨g, i, h⟩) <;> exact absurd h (by simp)

/-- One scheduler step preserves the two-turn safety invariant. -/
theorem inv_step (ttl maxB : Nat) (u : String) (ia ib : TurnIn) (c c2 : Cfg)
    (hinv : Inv u c) (hstep : Step ttl maxB u ia ib c c2) : Inv u c2 := by
  cases hstep with
  | aA st b t =>
    refine ⟨?_, ?_, ?_, ?_, ?_, ?_, ?_, ?_, ?_, ?_, ?_⟩
    · intro v g2 hg2
      rw [segA_st] at hg2 ⊢
      exact getS_wcur ttl st u t hinv.wcur v g2 hg2
    · intro g2 i h
      injection h with e1 e2
      subst e1
      rw [segA_g, segA_st]
      exact getS_fst_lt ttl st u t hinv.wcur
    · intro g2 i h
      have h1 := hinv.wB g2 i h
      rw [segA_st]
      exact lt_of_lt_of_le h1 (getS_next_mono ttl st u t)
    · rintro ⟨h1, -⟩
      exact absurd h1 (by simp)
    · intro g2 i h
      injection h with e1 e2
      subst e1
      left
      rw [segA_st, segA_g]
      exact getS_cur_self ttl st u t
    · intro g2 i h
      rcases getSessionS_spec ttl st u t with ⟨h1, h2⟩ | ⟨h1, h2⟩
      · rw [segA_st, h1]
        exact hinv.staleB g2 i h
      · right
        rw [segA_st, h2,
          alloc_heap_ne st u t g2 (Nat.ne_of_lt (hinv.wB g2 i h))]
        rcases hinv.staleB g2 i h with hcg | hcf
        · refine hinv.ng nonPast_p0 ?_ g2 hcg
          rw [h]
          exact nonPast_p1 g2 i
        · exact hcf
    · intro hna hnb g3 hg3
      rw [segA_st] at hg3 ⊢
      rcases getSessionS_spec ttl st u t with ⟨h1, h2⟩ | ⟨h1, h2⟩
      · rw [h1] at hg3 ⊢
        exact hinv.ng nonPast_p0 hnb g3 hg3
      · rw [h2] at hg3 ⊢
        rw [alloc_cur_self] at hg3
        simp only [Option.some.injEq] at hg3
        rw [← hg3, alloc_heap_new]
        exact checkFailO_fresh t
    · intro h
      exact absurd h (by simp)
    · intro h
      exact absurd h (by simp)
    · intro hb hna g3 hg3
      rw [segA_st] at hg3 ⊢
      rcases getSessionS_spec ttl st u t with ⟨h1, h2⟩ | ⟨h1, h2⟩
      · rw [h1] at hg3 ⊢
        exact hinv.trigBCur hb nonPast_p0 g3 hg3
      · rw [h2] at hg3 ⊢
        rw [alloc_cur_self] at hg3
        simp only [Option.some.injEq] at hg3
        rw [← hg3, alloc_heap_new]
        exact lockedOrEmptyO_fresh t
    · intro hb g3 i h
      injection h with e1 e2
      subst e1
      rw [segA_st, segA_g]
      rcases getSessionS_spec ttl st u t with ⟨h1, h2⟩ | ⟨h1, h2⟩
      · rw [h1]
        exact lockedOrEmptyO_checkFail _
          (hinv.trigBCur hb nonPast_p0 (getSessionS ttl st u t).1 h2)
      · rw [h2, h1, alloc_heap_new]
        exact checkFailO_fresh t
  | aB st b g ity t =>
    have hlock := segB_trig_lock ttl maxB st u g ity ia.text ia.hasMedia ia.dl t
    have hneutral := fun (g3 : Nat) (hw3 : g3 < st.next)
        (hcf3 : checkFailO (st.heap g3)) =>
      segB_neutral ttl maxB st u g ity ia.text ia.hasMedia ia.dl t g3 hw3 hcf3
    refine ⟨?_, ?_, ?_, ?_, ?_, ?_, ?_, ?_, ?_, ?_, ?_⟩
    · exact segB_wcur ttl maxB st u g ity ia.text ia.hasMedia ia.dl t hinv.wcur
    · intro g2 i h
      exact absurd h (by simp)
    · intro g2 i h
      exact lt_of_lt_of_le (hinv.wB g2 i h)
        (segB_next_mono ttl maxB st u g ity ia.text ia.hasMedia ia.dl t)
    · rintro ⟨h1, h2⟩
      have hnone := segB_locked_noready ttl maxB st u g ity ia.text ia.hasMedia
        ia.dl t (hinv.trigBCur h2 (nonPast_p1 g ity))
        (hinv.trigBCap h2 g ity rfl)
      injection h1 with h1
      rw [hnone] at h1
      exact absurd h1 (by simp)
    · intro g2 i h
      exact absurd h (by simp)
    · intro g2 i h
      refine (hneutral g2 (hinv.wB g2 i h) ?_).1
      rcases hinv.staleB g2 i h with hcg | hcf
      · refine hinv.ng (nonPast_p1 g ity) ?_ g2 hcg
        rw [h]
        exact nonPast_p1 g2 i
      · exact hcf
    · intro hna
      exact absurd hna (not_nonPast_p2 _)
    · intro ha hnb g3 hg3
      injection ha with ha
      obtain ⟨gL, hcL, hpL⟩ := hlock ha
      rw [hcL] at hg3
      simp only [Option.some.injEq] at hg3
      rw [← hg3]
      exact Or.inl hpL
    · intro ha g3 i h
      injection ha with ha
      refine (hneutral g3 (hinv.wB g3 i h) ?_).2 ha
      rcases hinv.staleB g3 i h with hcg | hcf
      · refine hinv.ng (nonPast_p1 g ity) ?_ g3 hcg
        rw [h]
        exact nonPast_p1 g3 i
      · exact hcf
    · intro hb hna
      exact absurd hna (not_nonPast_p2 _)
    · intro hb g3 i h
      exact absurd h (by simp)
  | aC st b t =>
    obtain ⟨hc1, hc2, hc3, hc4, hc5⟩ := segC_spec ttl st u t
    refine ⟨?_, ?_, ?_, ?_, ?_, ?_, ?_, ?_, ?_, ?_, ?_⟩
    · intro v g3 hg3
      by_cases hv : v = u
      · rw [hv, hc1] at hg3
        simp only [Option.some.injEq] at hg3
        dsimp only
        omega
      · rw [hc5 v hv] at hg3
        have h9 := hinv.wcur v g3 hg3
        dsimp only at h9 ⊢
        omega
    · intro g2 i h
      exact absurd h (by simp)
    · intro g2 i h
      have h9 := hinv.wB g2 i h
      dsimp only at h9 ⊢
      omega
    · rintro ⟨h1, -⟩
      exact absurd h1 (by simp)
    · intro g2 i h
      exact absurd h (by simp)
    · intro g2 i h
      right
      rw [hc3 g2 (Nat.ne_of_lt (hinv.wB g2 i h))]
      exact hinv.trigACap rfl g2 i h
    · intro hna
      exact absurd hna not_nonPast_p3
    · intro h
      exact absurd h (by simp)
    · intro h
      exact absurd h (by simp)
    · intro hb
      exact absurd ⟨rfl, hb⟩ hinv.goal
    · intro hb
      exact absurd ⟨rfl, hb⟩ hinv.goal
  | bA st a t =>
    refine ⟨?_, ?_, ?_, ?_, ?_, ?_, ?_, ?_, ?_, ?_, ?_⟩
    · intro v g2 hg2
      rw [segA_st] at hg2 ⊢
      exact getS_wcur ttl st u t hinv.wcur v g2 hg2
    · intro g2 i h
      have h1 := hinv.wA g2 i h
      rw [segA_st]
      exact lt_of_lt_of_le h1 (getS_next_mono ttl st u t)
    · intro g2 i h
      injection h with e1 e2
      subst e1
      rw [segA_g, segA_st]
      exact getS_fst_lt ttl st u t hinv.wcur
    · rintro ⟨-, h2⟩
      exact absurd h2 (by simp)
    · intro g2 i h
      rcases getSessionS_spec ttl st u t with ⟨h1, h2⟩ | ⟨h1, h2⟩
      · rw [segA_st, h1]
        exact hinv.staleA g2 i h
      · right
        rw [segA_st, h2,
          alloc_heap_ne st u t g2 (Nat.ne_of_lt (hinv.wA g2 i h))]
        rcases hinv.staleA g2 i h with hcg | hcf
        · refine hinv.ng ?_ nonPast_p0 g2 hcg
          rw [h]
          exact nonPast_p1 g2 i
        · exact hcf
    · intro g2 i h
      injection h with e1 e2
      subst e1
      left
      rw [segA_st, segA_g]
      exact getS_cur_self ttl st u t
    · intro hna hnb g3 hg3
      rw [segA_st] at hg3 ⊢
      rcases getSessionS_spec ttl st u t with ⟨h1, h2⟩ | ⟨h1, h2⟩
      · rw [h1] at hg3 ⊢
        exact hinv.ng hna nonPast_p0 g3 hg3
      · rw [h2] at hg3 ⊢
        rw [alloc_cur_self] at hg3
        simp only [Option.some.injEq] at hg3
        rw [← hg3, alloc_heap_new]
        exact checkFailO_fresh t
    · intro ha hnb g3 hg3
      rw [segA_st] at hg3 ⊢
      rcases getSessionS_spec ttl st u t with ⟨h1, h2⟩ | ⟨h1, h2⟩
      · rw [h1] at hg3 ⊢
        exact hinv.trigACur ha nonPast_p0 g3 hg3
      · rw [h2] at hg3 ⊢
        rw [alloc_cur_self] at hg3
        simp only [Option.some.injEq] at hg3
        rw [← hg3, alloc_heap_new]
        exact lockedOrEmptyO_fresh t
    · intro ha g3 i h
      injection h with e1 e2
      subst e1
      rw [segA_st, segA_g]
      rcases getSessionS_spec ttl st u t with ⟨h1, h2⟩ | ⟨h1, h2⟩
      · rw [h1]
        exact lockedOrEmptyO_checkFail _
          (hinv.trigACur ha nonPast_p0 (getSessionS ttl st u t).1 h2)
      · rw [h2, h1, alloc_heap_new]
        exact checkFailO_fresh t
    · intro hb hna
      exact absurd hb (by simp)
    · intro hb g3 i h
      exact absurd hb (by simp)
  | bB st a g ity t =>
    have hlock := segB_trig_lock ttl maxB st u g ity ib.text ib.hasMedia ib.dl t
    have hneutral := fun (g3 : Nat) (hw3 : g3 < st.next)
        (hcf3 : checkFailO (st.heap g3)) =>
      segB_neutral ttl maxB st u g ity ib.text ib.hasMedia ib.dl t g3 hw3 hcf3
    refine ⟨?_, ?_, ?_, ?_, ?_, ?_, ?_, ?_, ?_, ?_, ?_⟩
    · exact segB_wcur ttl maxB st u g ity ib.text ib.hasMedia ib.dl t hinv.wcur
    · intro g2 i h
      exact lt_of_lt_of_le (hinv.wA g2 i h)
        (segB_next_mono ttl maxB st u g ity ib.text ib.hasMedia ib.dl t)
    · intro g2 i h
      exact absurd h (by simp)
    · rintro ⟨h1, h2⟩
      have hnone := segB_locked_noready ttl maxB st u g ity ib.text ib.hasMedia
        ib.dl t (hinv.trigACur h1 (nonPast_p1 g ity))
        (hinv.trigACap h1 g ity rfl)
      injection h2 with h2
      rw [hnone] at h2
      exact absurd h2 (by simp)
    · intro g2 i h
      refine (hneutral g2 (hinv.wA g2 i h) ?_).1
      rcases hinv.staleA g2 i h with hcg | hcf
      · refine hinv.ng ?_ (nonPast_p1 g ity) g2 hcg
        rw [h]
        exact nonPast_p1 g2 i
      · exact hcf
    · intro g2 i h
      exact absurd h (by simp)
    · intro hna hnb
      exact absurd hnb (not_nonPast_p2 _)
    · intro ha hnb
      exact absurd hnb (not_nonPast_p2 _)
    · intro ha g3 i h
      exact absurd h (by simp)
    · intro hb hna g3 hg3
      injection hb with hb
      obtain ⟨gL, hcL, hpL⟩ := hlock hb
      rw [hcL] at hg3
      simp only [Option.some.injEq] at hg3
      rw [← hg3]
      exact Or.inl hpL
    · intro hb g3 i h
      injection hb with hb
      refine (hneutral g3 (hinv.wA g3 i h) ?_).2 hb
      rcases hinv.staleA g3 i h with hcg | hcf
      · refine hinv.ng ?_ (nonPast_p1 g ity) g3 hcg
        rw [h]
        exact nonPast_p1 g3 i
      · exact hcf
  | bC st a t =>
    obtain ⟨hc1, hc2, hc3, hc4, hc5⟩ := segC_spec ttl st u t
    refine ⟨?_, ?_, ?_, ?_, ?_, ?_, ?_, ?_, ?_, ?_, ?_⟩
    · intro v g3 hg3
      by_cases hv : v = u
      · rw [hv, hc1] at hg3
        simp only [Option.some.injEq] at hg3
        dsimp only
        omega
      · rw [hc5 v hv] at hg3
        have h9 := hinv.wcur v g3 hg3
        dsimp only at h9 ⊢
        omega
    · intro g2 i h
      have h9 := hinv.wA g2 i h
      dsimp only at h9 ⊢
      omega
    · intro g2 i h
      exact absurd h (by simp)
    · rintro ⟨-, h2⟩
      exact absurd h2 (by simp)
    · intro g2 i h
      right
      rw [hc3 g2 (Nat.ne_of_lt (hinv.wA g2 i h))]
      exact hinv.trigBCap rfl g2 i h
    · intro g2 i h
      exact absurd h (by simp)
    · intro hna hnb
      exact absurd hnb not_nonPast_p3
    · intro ha
      exact absurd ⟨ha, rfl⟩ hinv.goal
    · intro ha
      exact absurd ⟨ha, rfl⟩ hinv.goal
    · intro hb
      exact absurd hb (by simp)
    · intro hb
      exact absurd hb (by simp)

/-- The invariant holds at any well-formed, check-failing initial table with
both turns unstarted. -/
theorem inv_init (u : String) (st : Store)
    (h1 : ∀ v g, st.cur v = some g → g < st.next)
    (h2 : ∀ g, checkFailO (st.heap g)) : Inv u ⟨st, .p0, .p0⟩ := by
  refine ⟨h1, ?_, ?_, ?_, ?_, ?_, ?_, ?_, ?_, ?_, ?_⟩
  · intro g i h
    exact absurd h (by simp)
  · intro g i h
    exact absurd h (by simp)
  · rintro ⟨h, -⟩
    exact absurd h (by simp)
  · intro g i h
    exact absurd h (by simp)
  · intro g i h
    exact absurd h (by simp)
  · intro hna hnb g hg
    exact h2 g
  · intro h
    exact absurd h (by simp)
  · intro h
    exact absurd h (by simp)
  · intro h
    exact absurd h (by simp)
  · intro h
    exact absurd h (by simp)

/-- The invariant holds at every configuration reachable from such a table. -/
theorem inv_reach (ttl maxB : Nat) (u : String) (ia ib : TurnIn) (st : Store)
    (c : Cfg)
    (h1 : ∀ v g, st.cur v = some g → g < st.next)
    (h2 : ∀ g, checkFailO (st.heap g))
    (hr : Relation.ReflTransGen (Step ttl maxB u ia ib) ⟨st, .p0, .p0⟩ c) :
    Inv u c := by
  induction hr with
  | refl => exact inv_init u st h1 h2
  | tail hsteps hstep ih => exact inv_step ttl maxB u ia ib _ _ ih hstep

/-! ## Claim theorems -/

/-- Footprint of the store phase for a selfie-classified event with a
successful download: exactly one (current) cell is written, holding the new
selfie and no clothing. -/
theorem storePhase_selfie (ttl maxB : Nat) (st : Store) (u : String)
    (img : DownloadedImage) (t : Nat) :
    ∃ gc old,
      (storePhase ttl maxB st u (some Slot.selfie) true (Except.ok img) t).1.cur u
        = some gc ∧
      (storePhase ttl maxB st u (some Slot.selfie) true (Except.ok img) t).1.heap gc
        = ⟨some (storedOf img t), none, SessionObj.inProgress old, t⟩ := by
  have e : (storePhase ttl maxB st u (some Slot.selfie) true (Except.ok img) t).1 =
      storeMediaS ttl st u Slot.selfie (storedOf img t) t := rfl
  obtain ⟨gc, old, hcur, hheap, hother, hcase, hcuro⟩ :=
    updS_spec ttl st u (fun s => { s with clothing := none }) t
  set st1 := updateSessionS ttl st u (fun s => { s with clothing := none }) t
    with hst1
  have hval : st1.heap gc = ⟨old.selfie, none, old.inProgress, t⟩ := hheap
  have hlu : ¬(t - (st1.heap gc).lastUpdated > ttl) := by
    rw [hval]; simp
  have efin : storeMediaS ttl st u Slot.selfie (storedOf img t) t =
      updateSessionS ttl st1 u
        (fun s => { s with selfie := some (storedOf img t) }) t := rfl
  have hcurrent := updS_current ttl st1 u
    (fun s => { s with selfie := some (storedOf img t) }) t gc hcur hlu
  refine ⟨gc, old, ?_, ?_⟩
  · rw [e, efin, hcurrent, writeHeap_cur]; exact hcur
  · rw [e, efin, hcurrent, writeHeap_heap_self, hval]

/-- C1: when an inbound event stores a new selfie image, the previously
stored clothing in that user's session is cleared before the new selfie is
written — the clearing update alone leaves the session with no clothing, and
after the whole segment the session holds the new selfie and no clothing, so
a fresh selfie is never paired with clothing received before it. -/
theorem newSelfie_clears_stored_clothing (ttl maxB : Nat) (st : Store)
    (u : String) (g : Nat) (text : Option String) (img : DownloadedImage)
    (t : Nat) :
    (∃ gc1,
      (updateSessionS ttl st u (fun s => { s with clothing := none }) t).cur u
        = some gc1 ∧
      ((updateSessionS ttl st u (fun s => { s with clothing := none }) t).heap gc1).clothing
        = none) ∧
    (∃ gc,
      (segB ttl maxB st u g (some Slot.selfie) text true (Except.ok img) t).st.cur u
        = some gc ∧
      ((segB ttl maxB st u g (some Slot.selfie) text true (Except.ok img) t).st.heap gc).selfie
        = some (storedOf img t) ∧
      ((segB ttl maxB st u g (some Slot.selfie) text true (Except.ok img) t).st.heap gc).clothing
        = none) := by
  constructor
  · obtain ⟨gc1, old1, hcur1, hheap1, -, -, -⟩ :=
      updS_spec ttl st u (fun s => { s with clothing := none }) t
    refine ⟨gc1, hcur1, ?_⟩
    rw [hheap1]
  · obtain ⟨gc, old, hcur, hval⟩ := storePhase_selfie ttl maxB st u img t
    have hlu : ¬(t - ((storePhase ttl maxB st u (some Slot.selfie) true
        (Except.ok img) t).1.heap gc).lastUpdated > ttl) := by
      rw [hval]; simp
    rcases hrc : readyCheck ((storePhase ttl maxB st u (some Slot.selfie) true
        (Except.ok img) t).1.heap g) with - | ⟨sel2, clo2⟩
    · obtain ⟨-, hs⟩ := segB_notready ttl maxB st u g (some Slot.selfie) text
        true (Except.ok img) t ((readyCheck_none_iff _).mp hrc)
      rw [getS_noexp ttl _ u t gc hcur hlu] at hs
      refine ⟨gc, ?_, ?_, ?_⟩
      · rw [hs]; exact hcur
      · rw [hs, hval]
      · rw [hs, hval]
    · obtain ⟨-, hs⟩ := segB_ready_eval ttl maxB st u g (some Slot.selfie) text
        true (Except.ok img) t sel2 clo2 hrc
      rw [updS_current ttl _ u _ t gc hcur hlu] at hs
      refine ⟨gc, ?_, ?_, ?_⟩
      · rw [hs, writeHeap_cur]; exact hcur
      · rw [hs, writeHeap_heap_self, hval]
      · rw [hs, writeHeap_heap_self, hval]

/-- C3: a `getSession` strictly more than the TTL after `lastUpdated`
installs and returns a fresh empty session (no selfie, no clothing, not in
progress) and never the stale contents; an access at or under the TTL
returns the stored session unchanged. -/
theorem getSession_ttl_expiry (ttl : Nat) (st : Store) (u : String) (t g : Nat)
    (hcur : st.cur u = some g) :
    (t - (st.heap g).lastUpdated > ttl →
      (getSessionS ttl st u t).2.heap (getSessionS ttl st u t).1 = freshObj t ∧
      ((getSessionS ttl st u t).2.heap (getSessionS ttl st u t).1).selfie = none ∧
      ((getSessionS ttl st u t).2.heap (getSessionS ttl st u t).1).clothing = none ∧
      ((getSessionS ttl st u t).2.heap (getSessionS ttl st u t).1).inProgress = false) ∧
    (t - (st.heap g).lastUpdated ≤ ttl →
      getSessionS ttl st u t = (g, st)) := by
  constructor
  · intro hexp
    have e : getSessionS ttl st u t = alloc st u t := by
      unfold getSessionS
      rw [hcur]
      simp [hexp]
    rw [e]
    refine ⟨?_, ?_, ?_, ?_⟩ <;> simp [alloc, freshObj]
  · intro hle
    exact getS_noexp ttl st u t g hcur (by omega)

/-- Witness for C3 at a concrete table: the session of `sampleUser`, last
updated at 90000, is expired at 700000 under the default TTL and reads back
empty, while at 100000 it reads back unchanged. -/
theorem getSession_ttl_expiry_witness :
    c3Store.cur sampleUser = some 0 ∧
    ((getSessionS SESSION_TTL_MS c3Store sampleUser 700000).2.heap
      (getSessionS SESSION_TTL_MS c3Store sampleUser 700000).1).selfie = none ∧
    getSessionS SESSION_TTL_MS c3Store sampleUser 100000 = (0, c3Store) :=
  ⟨rfl,
   ((getSession_ttl_expiry SESSION_TTL_MS c3Store sampleUser 700000 0 rfl).1
     (by decide)).2.1,
   (getSession_ttl_expiry SESSION_TTL_MS c3Store sampleUser 100000 0 rfl).2
     (by decide)⟩

/-- C8: the inbound classifier agrees everywhere with the specification's
rule — word-boundary selfie vocabulary first, then clothing vocabulary, then
the positional fallback for unlabeled media, else no slot. -/
theorem classify_matches_spec (text : Option String) (hasMedia hasSelfie : Bool) :
    classifyInbound text hasMedia hasSelfie = classifySpec text hasMedia hasSelfie := by
  cases text with
  | none => rfl
  | some t =>
    by_cases h0 : t = ""
    · subst h0
      have hs : ¬ SelfieTextMatch "" := by
        intro h
        exact absurd ((selfieTextMatch_iff "").mpr h) (by decide)
      have hc : ¬ ClothingTextMatch "" := by
        intro h
        exact absurd ((clothingTextMatch_iff "").mpr h) (by decide)
      simp [classifyInbound, classifySpec, hs, hc]
    · by_cases h1 : SelfieTextMatch t
      · have b1 : testVocab selfieVocab (lowerAscii t) = true :=
          (selfieTextMatch_iff t).mpr h1
        simp [classifyInbound, classifySpec, h0, h1, b1]
      · have b1 : testVocab selfieVocab (lowerAscii t) = false := by
          rw [Bool.eq_false_iff]
          intro hb
          exact h1 ((selfieTextMatch_iff t).mp hb)
        by_cases h2 : ClothingTextMatch t
        · have b2 : testVocab clothingVocab (lowerAscii t) = true :=
            (clothingTextMatch_iff t).mpr h2
          simp [classifyInbound, classifySpec, h0, h1, h2, b1, b2]
        · have b2 : testVocab clothingVocab (lowerAscii t) = false := by
            rw [Bool.eq_false_iff]
            intro hb
            exact h2 ((clothingTextMatch_iff t).mp hb)
          simp [classifyInbound, classifySpec, h0, h1, h2, b1, b2]

/-- A failed download stores nothing (the `catch` only sends the tip). -/
theorem storePhase_error (ttl maxB : Nat) (st : Store) (u : String)
    (ity : Option Slot) (hm : Bool) (e : FetchErr) (t : Nat) :
    (storePhase ttl maxB st u ity hm (Except.error e) t).1 = st := by
  cases hm <;> cases ity <;> rfl

/-- After a `segB` whose download failed, no session slot has gained an
image: each slot of each cell is unchanged or empty. -/
theorem segB_error_no_store (ttl maxB : Nat) (st : Store) (u : String)
    (g : Nat) (ity : Option Slot) (text : Option String) (hm : Bool)
    (e : FetchErr) (t g2 : Nat) :
    (((segB ttl maxB st u g ity text hm (Except.error e) t).st.heap g2).selfie
        = (st.heap g2).selfie ∨
      ((segB ttl maxB st u g ity text hm (Except.error e) t).st.heap g2).selfie
        = none) ∧
    (((segB ttl maxB st u g ity text hm (Except.error e) t).st.heap g2).clothing
        = (st.heap g2).clothing ∨
      ((segB ttl maxB st u g ity text hm (Except.error e) t).st.heap g2).clothing
        = none) := by
  have hsp : (storePhase ttl maxB st u ity hm (Except.error e) t).1 = st :=
    storePhase_error ttl maxB st u ity hm e t
  rcases hrc : readyCheck ((storePhase ttl maxB st u ity hm (Except.error e) t).1.heap g)
    with - | ⟨sel, clo⟩
  · obtain ⟨-, hs⟩ := segB_notready ttl maxB st u g ity text hm (Except.error e) t
      ((readyCheck_none_iff _).mp hrc)
    rw [hs, hsp]
    rcases getS_heap_cases ttl st u t g2 with h1 | ⟨h1, -, -⟩
    · rw [h1]; exact ⟨Or.inl rfl, Or.inl rfl⟩
    · rw [h1]; exact ⟨Or.inr rfl, Or.inr rfl⟩
  · obtain ⟨-, hs⟩ := segB_ready_eval ttl maxB st u g ity text hm
      (Except.error e) t sel clo hrc
    rw [hs, hsp]
    obtain ⟨gc, old, -, hheap, hother, hcase, -⟩ :=
      updS_spec ttl st u (fun s2 => { s2 with inProgress := true }) t
    by_cases hgg : g2 = gc
    · subst hgg
      rw [hheap]
      rcases hcase with ⟨hold, -, -⟩ | ⟨hold, -, -⟩
      · rw [hold]; exact ⟨Or.inl rfl, Or.inl rfl⟩
      · rw [hold]; exact ⟨Or.inr rfl, Or.inr rfl⟩
    · rw [hother g2 hgg]
      exact ⟨Or.inl rfl, Or.inl rfl⟩

/-- C5: when the resolved payload length (probe content-length when nonzero,
else the downloaded byte count) exceeds the configured maximum, the fetch
fails with `TooLarge` carrying that size — whatever the declared content
type, since the size check precedes the type check — and a turn whose
download failed never stores an image into any session slot. -/
theorem fetch_too_large_rejected (maxB : Nat) (env : FetchEnv)
    (hhead : ∀ h, env.head = some h → h.status ≠ 401 ∧ h.status ≠ 403)
    (hok : env.getOk = true)
    (hsize : resolvedLen env > maxB) :
    downloadImageAsBase64IfSupported maxB env =
      .error (.tooLarge (resolvedLen env)) ∧
    (∀ (ttl : Nat) (st : Store) (u : String) (g : Nat) (ity : Option Slot)
        (text : Option String) (hm : Bool) (e : FetchErr) (t g2 : Nat),
      (((segB ttl maxB st u g ity text hm (Except.error e) t).st.heap g2).selfie
          = (st.heap g2).selfie ∨
        ((segB ttl maxB st u g ity text hm (Except.error e) t).st.heap g2).selfie
          = none) ∧
      (((segB ttl maxB st u g ity text hm (Except.error e) t).st.heap g2).clothing
          = (st.heap g2).clothing ∨
        ((segB ttl maxB st u g ity text hm (Except.error e) t).st.heap g2).clothing
          = none)) := by
  constructor
  · cases hh : env.head with
    | none =>
      simp [downloadImageAsBase64IfSupported, hh, hok, hsize]
    | some h =>
      obtain ⟨hs1, hs2⟩ := hhead h hh
      simp [downloadImageAsBase64IfSupported, hh, hok, hsize, hs1, hs2]
  · intro ttl st u g ity text hm e t g2
    exact segB_error_no_store ttl maxB st u g ity text hm e t g2

/-- Witness for C5: an oversized WEBP (declared length 99999999) is rejected
as `TooLarge`, not as an unsupported type. -/
theorem fetch_too_large_rejected_witness :
    sampleFetchWebpBig.getOk = true ∧
    resolvedLen sampleFetchWebpBig > IMAGE_MAX_BYTES ∧
    downloadImageAsBase64IfSupported IMAGE_MAX_BYTES sampleFetchWebpBig =
      .error (.tooLarge 99999999) :=
  ⟨rfl, by decide,
   (fetch_too_large_rejected IMAGE_MAX_BYTES sampleFetchWebpBig
     (fun h hh => by
       rw [show sampleFetchWebpBig.head = some ⟨200, "image/webp", 99999999⟩
         from rfl] at hh
       cases hh
       exact ⟨by decide, by decide⟩)
     rfl (by decide)).1⟩

/-- C9: a fetch that passes the size check accepts only content sniffed as
PNG or JPEG, returning the normalized mime type, and otherwise fails with
the `Unsupported` kind selected by the declared type: WEBP, HEIC/HEIF, or
the generic kind. -/
theorem fetch_type_acceptance (maxB : Nat) (env : FetchEnv)
    (hhead : ∀ h, env.head = some h → h.status ≠ 401 ∧ h.status ≠ 403)
    (hok : env.getOk = true)
    (hsize : ¬(resolvedLen env > maxB)) :
    (strIncludes (resolvedCT env) "image/png" = true →
      downloadImageAsBase64IfSupported maxB env =
        .ok ⟨bytesToBase64 env.body, "image/png", resolvedLen env, resolvedCT env⟩) ∧
    (strIncludes (resolvedCT env) "image/png" = false →
      (strIncludes (resolvedCT env) "image/jpeg" = true ∨
        strIncludes (resolvedCT env) "image/jpg" = true) →
      downloadImageAsBase64IfSupported maxB env =
        .ok ⟨bytesToBase64 env.body, "image/jpeg", resolvedLen env, resolvedCT env⟩) ∧
    (strIncludes (resolvedCT env) "image/png" = false →
      strIncludes (resolvedCT env) "image/jpeg" = false →
      strIncludes (resolvedCT env) "image/jpg" = false →
      downloadImageAsBase64IfSupported maxB env =
        .error
          (if strIncludes (resolvedCT env) "image/webp" = true then
            .unsupportedWebp (resolvedCT env)
          else if (strIncludes (resolvedCT env) "image/heic" ||
              strIncludes (resolvedCT env) "image/heif") = true then
            .unsupportedHeic (resolvedCT env)
          else .unsupportedType (resolvedCT env))) := by
  refine ⟨?_, ?_, ?_⟩
  · intro hpng
    cases hh : env.head with
    | none =>
      simp [downloadImageAsBase64IfSupported, hh, hok, hsize, hpng]
    | some h =>
      obtain ⟨hs1, hs2⟩ := hhead h hh
      simp [downloadImageAsBase64IfSupported, hh, hok, hsize, hs1, hs2, hpng]
  · intro hpng hjpeg
    cases hh : env.head with
    | none =>
      rcases hjpeg with hj | hj <;>
        simp [downloadImageAsBase64IfSupported, hh, hok, hsize, hpng, hj]
    | some h =>
      obtain ⟨hs1, hs2⟩ := hhead h hh
      rcases hjpeg with hj | hj <;>
        simp [downloadImageAsBase64IfSupported, hh, hok, hsize, hs1, hs2, hpng, hj]
  · intro hpng hjpeg hjpg
    cases hh : env.head with
    | none =>
      simp [downloadImageAsBase64IfSupported, hh, hok, hsize, hpng, hjpeg, hjpg]
    | some h =>
      obtain ⟨hs1, hs2⟩ := hhead h hh
      simp [downloadImageAsBase64IfSupported, hh, hok, hsize, hs1, hs2, hpng,
        hjpeg, hjpg]

/-- Witness for C9: a small WEBP is rejected with the WEBP-specific kind. -/
theorem fetch_type_acceptance_witness :
    resolvedCT sampleFetchWebpSmall = "image/webp" ∧
    downloadImageAsBase64IfSupported IMAGE_MAX_BYTES sampleFetchWebpSmall =
      .error (.unsupportedWebp "image/webp") :=
  ⟨rfl,
   (fetch_type_acceptance IMAGE_MAX_BYTES sampleFetchWebpSmall
     (fun h hh => by
       rw [show sampleFetchWebpSmall.head = some ⟨200, "image/webp", 100⟩
         from rfl] at hh
       cases hh
       exact ⟨by decide, by decide⟩)
     rfl (by decide)).2.2 rfl rfl rfl⟩

/-- C4: when the streaming response completes with no inline image fragment,
exactly one non-streaming call is issued with the identical request and its
response is searched with the same `findInlineData`; when the stream does
carry an image fragment, no non-streaming call is made. -/
theorem generation_single_fallback (req : GenRequest)
    (streamResp : Except Unit (List JVal)) (fullResp : Except Unit JVal)
    (evs : List JVal) (hstream : streamResp = .ok evs) :
    ((collectFromStream evs).1 = none →
      (segGen req streamResp fullResp).calls =
        [.genStream req, .genFull req] ∧
      (∀ fr, fullResp = .ok fr →
        (segGen req streamResp fullResp).imagePart = findInlineData fr)) ∧
    (∀ ip, (collectFromStream evs).1 = some ip →
      (segGen req streamResp fullResp).calls = [.genStream req] ∧
      (segGen req streamResp fullResp).imagePart = some ip) := by
  subst hstream
  constructor
  · intro hnone
    constructor
    · cases fullResp with
      | error e => simp [segGen, hnone]
      | ok fr => simp [segGen, hnone]
    · intro fr hfr
      subst hfr
      simp [segGen, hnone]
  · intro ip hip
    constructor <;> simp [segGen, hip]

/-- Witness for C4: an empty stream followed by a fallback response carrying
an inline image. -/
theorem generation_single_fallback_witness :
    (collectFromStream ([] : List JVal)).1 = none ∧
    (segGen sampleReq (.ok []) (.ok sampleGenImage)).calls =
      [.genStream sampleReq, .genFull sampleReq] ∧
    (segGen sampleReq (.ok []) (.ok sampleGenImage)).imagePart =
      findInlineData sampleGenImage :=
  ⟨rfl,
   ((generation_single_fallback sampleReq (.ok []) (.ok sampleGenImage) []
     rfl).1 rfl).1,
   ((generation_single_fallback sampleReq (.ok []) (.ok sampleGenImage) []
     rfl).1 rfl).2 sampleGenImage rfl⟩

/-- The table a triggered turn ends with is the reset-plus-unlock of its
`segB` table, for both terminal outcomes. -/
theorem inboundTurn_store_triggered (ttl maxB : Nat) (st : Store) (u : String)
    (text : Option String) (hm : Bool) (env : TurnEnv) (tm : TurnTimes)
    (sel clo : StoredImage)
    (htrig : (turnSegB ttl maxB st u text hm env tm).ready = some (sel, clo)) :
    (inboundTurn ttl maxB st u text hm env tm).1 =
      segCStore ttl (turnSegB ttl maxB st u text hm env tm).st u tm.tC := by
  simp only [inboundTurn, htrig]
  split <;> rfl

/-- C6: every completed generation attempt — image or not, deliverable or
not — ends with the user's session reset to the fresh empty state; and a
transport failure from the streaming call, or from the fallback call, is
caught and surfaces as the apology message instead of escaping the turn. -/
theorem generation_turn_resets_session (ttl maxB : Nat) (st : Store)
    (u : String) (text : Option String) (hm : Bool) (env : TurnEnv)
    (tm : TurnTimes) (sel clo : StoredImage)
    (htrig : (turnSegB ttl maxB st u text hm env tm).ready = some (sel, clo)) :
    (∃ gN, (inboundTurn ttl maxB st u text hm env tm).1.cur u = some gN ∧
      (inboundTurn ttl maxB st u text hm env tm).1.heap gN = freshObj tm.tC) ∧
    (∀ e, env.streamResp = .error e →
      Effect.sendApology ∈ (inboundTurn ttl maxB st u text hm env tm).2) ∧
    (∀ evs e2, env.streamResp = .ok evs → (collectFromStream evs).1 = none →
      env.fullResp = .error e2 →
      Effect.sendApology ∈ (inboundTurn ttl maxB st u text hm env tm).2) := by
  obtain ⟨hc1, hc2, hc3, hc4, hc5⟩ :=
    segC_spec ttl (turnSegB ttl maxB st u text hm env tm).st u tm.tC
  have hstore := inboundTurn_store_triggered ttl maxB st u text hm env tm
    sel clo htrig
  refine ⟨⟨(turnSegB ttl maxB st u text hm env tm).st.next, ?_, ?_⟩, ?_, ?_⟩
  · rw [hstore]; exact hc1
  · rw [hstore]; exact hc2
  · intro e he
    simp [inboundTurn, htrig, segGen, he]
  · intro evs e2 hsr hcol hf
    simp [inboundTurn, htrig, segGen, hsr, hcol, hf]

/-- Witness for C6: a turn that completes a generation (image delivered on
the rich tier) leaves the session freshly reset. -/
theorem generation_turn_resets_session_witness :
    (turnSegB SESSION_TTL_MS IMAGE_MAX_BYTES c6Store sampleUser none true
      sampleTurnEnv sampleTimes).ready =
        some (sampleStoredSelfie, sampleStoredClothing) ∧
    (∃ gN, (inboundTurn SESSION_TTL_MS IMAGE_MAX_BYTES c6Store sampleUser none
      true sampleTurnEnv sampleTimes).1.cur sampleUser = some gN ∧
      (inboundTurn SESSION_TTL_MS IMAGE_MAX_BYTES c6Store sampleUser none true
        sampleTurnEnv sampleTimes).1.heap gN = freshObj 60) :=
  ⟨rfl,
   (generation_turn_resets_session SESSION_TTL_MS IMAGE_MAX_BYTES c6Store
     sampleUser none true sampleTurnEnv sampleTimes sampleStoredSelfie
     sampleStoredClothing rfl).1⟩

/-- C7: a successful generation is delivered through the strictly ordered
rich-image, plain-image, text-link chain, stopping at the first success;
each tier's failure only lets the next tier run, and even with every tier
failing the turn raises nothing and still resets the session. -/
theorem delivery_fallback_three_tiers (ttl maxB : Nat) (st : Store)
    (u : String) (text : Option String) (hm : Bool) (env : TurnEnv)
    (tm : TurnTimes) (sel clo : StoredImage)
    (htrig : (turnSegB ttl maxB st u text hm env tm).ready = some (sel, clo))
    (himg : (match (segGen ⟨sel, clo, tryOnPrompt⟩ env.streamResp
        env.fullResp).imagePart with
      | some v => hasTruthyData v
      | none => false) = true) :
    (∃ pre, (inboundTurn ttl maxB st u text hm env tm).2 =
      pre ++ deliverAttempts env (env.publicBase ++ "/photos/" ++
        ("tryon_" ++ u ++ "_" ++ toString tm.tGen ++ ".png"))) ∧
    (∀ url, env.richOk = true → deliverAttempts env url = [.sendRich url]) ∧
    (∀ url, env.richOk = false → env.plainOk = true →
      deliverAttempts env url = [.sendRich url, .sendPlainImage url]) ∧
    (∀ url, env.richOk = false → env.plainOk = false →
      deliverAttempts env url =
        [.sendRich url, .sendPlainImage url, .sendTextLink url]) ∧
    (∃ gN, (inboundTurn ttl maxB st u text hm env tm).1.cur u = some gN ∧
      (inboundTurn ttl maxB st u text hm env tm).1.heap gN = freshObj tm.tC) := by
  obtain ⟨hc1, hc2, hc3, hc4, hc5⟩ :=
    segC_spec ttl (turnSegB ttl maxB st u text hm env tm).st u tm.tC
  have hstore := inboundTurn_store_triggered ttl maxB st u text hm env tm
    sel clo htrig
  refine ⟨?_, ?_, ?_, ?_,
    ⟨(turnSegB ttl maxB st u text hm env tm).st.next, ?_, ?_⟩⟩
  · refine ⟨(turnSegB ttl maxB st u text hm env tm).effs ++
      (segGen ⟨sel, clo, tryOnPrompt⟩ env.streamResp env.fullResp).calls ++
      [Effect.saveFile ("tryon_" ++ u ++ "_" ++ toString tm.tGen ++ ".png")], ?_⟩
    simp only [inboundTurn, htrig, himg, if_pos]
  · intro url hr
    simp [deliverAttempts, hr]
  · intro url hr hp
    simp [deliverAttempts, hr, hp]
  · intro url hr hp
    simp [deliverAttempts, hr, hp]
  · rw [hstore]; exact hc1
  · rw [hstore]; exact hc2

/-- Witness for C7: with the rich tier succeeding, the chain is exactly the
one rich attempt. -/
theorem delivery_fallback_three_tiers_witness :
    (turnSegB SESSION_TTL_MS IMAGE_MAX_BYTES c6Store sampleUser none true
      sampleTurnEnv sampleTimes).ready =
        some (sampleStoredSelfie, sampleStoredClothing) ∧
    deliverAttempts sampleTurnEnv "https://example.test/photos/x.png" =
      [.sendRich "https://example.test/photos/x.png"] :=
  ⟨rfl,
   (delivery_fallback_three_tiers SESSION_TTL_MS IMAGE_MAX_BYTES c6Store
     sampleUser none true sampleTurnEnv sampleTimes sampleStoredSelfie
     sampleStoredClothing rfl rfl).2.1
     "https://example.test/photos/x.png" rfl⟩

/-- C10: every turn that enters the generation branch ends with `inProgress`
false again, whatever the generation, save and delivery outcomes — the
reset-then-finally sequence leaves the live session unlocked. -/
theorem generation_turn_always_unlocks (ttl maxB : Nat) (st : Store)
    (u : String) (text : Option String) (hm : Bool) (env : TurnEnv)
    (tm : TurnTimes) (sel clo : StoredImage)
    (htrig : (turnSegB ttl maxB st u text hm env tm).ready = some (sel, clo)) :
    ∃ gN, (inboundTurn ttl maxB st u text hm env tm).1.cur u = some gN ∧
      ((inboundTurn ttl maxB st u text hm env tm).1.heap gN).inProgress = false := by
  obtain ⟨hc1, hc2, hc3, hc4, hc5⟩ :=
    segC_spec ttl (turnSegB ttl maxB st u text hm env tm).st u tm.tC
  have hstore := inboundTurn_store_triggered ttl maxB st u text hm env tm
    sel clo htrig
  refine ⟨(turnSegB ttl maxB st u text hm env tm).st.next, ?_, ?_⟩
  · rw [hstore]; exact hc1
  · rw [hstore, hc2]
    rfl

/-- Witness for C10: the completed sample turn leaves `inProgress = false`. -/
theorem generation_turn_always_unlocks_witness :
    (turnSegB SESSION_TTL_MS IMAGE_MAX_BYTES c6Store sampleUser none true
      sampleTurnEnv sampleTimes).ready =
        some (sampleStoredSelfie, sampleStoredClothing) ∧
    (∃ gN, (inboundTurn SESSION_TTL_MS IMAGE_MAX_BYTES c6Store sampleUser none
      true sampleTurnEnv sampleTimes).1.cur sampleUser = some gN ∧
      ((inboundTurn SESSION_TTL_MS IMAGE_MAX_BYTES c6Store sampleUser none true
        sampleTurnEnv sampleTimes).1.heap gN).inProgress = false) :=
  ⟨rfl,
   generation_turn_always_unlocks SESSION_TTL_MS IMAGE_MAX_BYTES c6Store
     sampleUser none true sampleTurnEnv sampleTimes sampleStoredSelfie
     sampleStoredClothing rfl⟩

/-- C2: the ready check and the `inProgress` lock happen in the same atomic
segment — a triggering `segB` leaves the live session locked — and in any
interleaving of two turns for one user from a well-formed table with no
ready-and-unlocked object, the two turns are never concurrently generating:
an event arriving while the session is `inProgress` cannot start a second
generation. -/
theorem inProgress_lock_no_concurrent_generation (ttl maxB : Nat)
    (u : String) (ia ib : TurnIn) :
    (∀ (st : Store) (g : Nat) (ity : Option Slot) (text : Option String)
        (hm : Bool) (dl : Except FetchErr DownloadedImage) (t : Nat),
      (segB ttl maxB st u g ity text hm dl t).ready.isSome = true →
      ∃ gL, (segB ttl maxB st u g ity text hm dl t).st.cur u = some gL ∧
        ((segB ttl maxB st u g ity text hm dl t).st.heap gL).inProgress = true) ∧
    (∀ (st : Store) (c : Cfg),
      (∀ v g, st.cur v = some g → g < st.next) →
      (∀ g, checkFailO (st.heap g)) →
      Relation.ReflTransGen (Step ttl maxB u ia ib) ⟨st, .p0, .p0⟩ c →
      ¬(c.a = Pc.p2 true ∧ c.b = Pc.p2 true)) := by
  constructor
  · intro st g ity text hm dl t h
    exact segB_trig_lock ttl maxB st u g ity text hm dl t h
  · intro st c h1 h2 hr
    exact (inv_reach ttl maxB u ia ib st c h1 h2 hr).goal

/-- Witness for C2 at the empty table, after one concrete scheduler step of
the first turn. -/
theorem inProgress_lock_no_concurrent_generation_witness :
    ((∀ v g, emptyStore.cur v = some g → g < emptyStore.next) ∧
      (∀ g, checkFailO (emptyStore.heap g))) ∧
    ¬((Cfg.mk (segA SESSION_TTL_MS emptyStore sampleUser sampleTurnInA.text
          sampleTurnInA.hasMedia 5).st
        (Pc.p1 (segA SESSION_TTL_MS emptyStore sampleUser sampleTurnInA.text
          sampleTurnInA.hasMedia 5).g
          (segA SESSION_TTL_MS emptyStore sampleUser sampleTurnInA.text
            sampleTurnInA.hasMedia 5).ity) Pc.p0).a = Pc.p2 true ∧
      (Cfg.mk (segA SESSION_TTL_MS emptyStore sampleUser sampleTurnInA.text
          sampleTurnInA.hasMedia 5).st
        (Pc.p1 (segA SESSION_TTL_MS emptyStore sampleUser sampleTurnInA.text
          sampleTurnInA.hasMedia 5).g
          (segA SESSION_TTL_MS emptyStore sampleUser sampleTurnInA.text
            sampleTurnInA.hasMedia 5).ity) Pc.p0).b = Pc.p2 true) :=
  ⟨⟨fun v g h => by simp [emptyStore] at h, fun g => checkFailO_fresh 0⟩,
   (inProgress_lock_no_concurrent_generation SESSION_TTL_MS IMAGE_MAX_BYTES
     sampleUser sampleTurnInA sampleTurnInB).2 emptyStore _
     (fun v g h => by simp [emptyStore] at h)
     (fun g => checkFailO_fresh 0)
     (Relation.ReflTransGen.tail Relation.ReflTransGen.refl
       (Step.aA emptyStore Pc.p0 5))⟩

end TryOn
